import Mathlib

/-
  Verification development for the BillsBuddy serverless bill-extraction and
  reminder-scheduling functions.

  The definitions below are a shallow embedding of the Python sources
  `lambdas/ExtractBillFieldsFn/lambda_function.py` and
  `lambdas/ScheduleRemindersFn/lambda_function.py`.  Pure Python functions
  become Lean functions; the regular expressions used by the sources are
  embedded via a small backtracking regex engine that reproduces Python's
  `re.search`/`re.finditer` leftmost, greedy, alternation-priority semantics
  for the character classes, bounded repetitions, optional groups, stars and
  word boundaries actually occurring in the source patterns; Python numbers
  are modelled as rationals (decimal values; IEEE rounding is not modelled);
  fallible operations return `Option`; external collaborators (Textract,
  Bedrock, DynamoDB) appear as explicit parameters of the handler models.
-/

-- The Batteries rational operations are `@[irreducible]`; unseal them so
-- concrete evaluations of the embedded arithmetic reduce definitionally.
unseal Rat.ofScientific Rat.mul Rat.inv Rat.add Rat.sub

namespace BillsBuddy

/-! ## Python character helpers -/

/-- ASCII word character, Python regex `\w` on the texts involved. -/
def isWordChar (c : Char) : Bool := c.isAlphanum || c = '_'

/-- Python regex `\s` / `str.strip` whitespace (ASCII subset). -/
def isSpaceChar (c : Char) : Bool :=
  c = ' ' || c = '\t' || c = '\n' || c = '\r' || c = '\x0b' || c = '\x0c'

/-- ASCII letter, regex class `[A-Za-z]`. -/
def isAsciiLetter (c : Char) : Bool :=
  (65 ≤ c.toNat && c.toNat ≤ 90) || (97 ≤ c.toNat && c.toNat ≤ 122)

/-- Python `str.strip()` (whitespace from both ends). -/
def pyStrip (s : String) : String :=
  String.mk (((s.data.dropWhile isSpaceChar).reverse.dropWhile isSpaceChar).reverse)

/-- Digits of a numeral, most significant first, to a natural number. -/
def digitsToNat (cs : List Char) : ℕ :=
  cs.foldl (fun a c => a * 10 + (c.toNat - 48)) 0

/-- Replace every (leftmost, non-overlapping) occurrence of `pat`.  Fuel is
structural recursion bookkeeping; `length + 1` suffices for nonempty `pat`. -/
def replaceListAux (pat rep : List Char) : ℕ → List Char → List Char
  | 0, cs => cs
  | f+1, cs =>
    match cs with
    | [] => []
    | c :: t =>
      if pat.isPrefixOf (c :: t) then rep ++ replaceListAux pat rep f ((c :: t).drop pat.length)
      else c :: replaceListAux pat rep f t

/-- Python `str.replace(pat, rep)` (all occurrences, left to right). -/
def pyReplace (s pat rep : String) : String :=
  if pat = "" then s
  else String.mk (replaceListAux pat.data rep.data (s.data.length + 1) s.data)

def pySplitListAux (sep : List Char) : ℕ → List Char → List Char → List (List Char)
  | 0, cs, cur => [cur.reverse ++ cs]
  | f+1, cs, cur =>
    match cs with
    | [] => [cur.reverse]
    | c :: t =>
      if sep.isPrefixOf (c :: t) then
        cur.reverse :: pySplitListAux sep f ((c :: t).drop sep.length) []
      else pySplitListAux sep f t (c :: cur)

/-- Python `str.split(sep)` for nonempty `sep`. -/
def pySplit (s sep : String) : List String :=
  if sep = "" then [s]
  else (pySplitListAux sep.data (s.data.length + 1) s.data []).map String.mk

/-- Python `str.endswith`. -/
def pyEndsWith (s suf : String) : Bool :=
  suf.data.reverse.isPrefixOf s.data.reverse

/-- Python `sep.join(xs)`. -/
def pyJoin (sep : String) : List String → String
  | [] => ""
  | x :: t => t.foldl (fun a b => a ++ sep ++ b) x

/-! ## A small backtracking regex engine

Reproduces the semantics of the concrete patterns used by the source:
leftmost match, greedy quantifiers, alternatives tried left to right,
`\b` word boundaries, numbered capture groups. -/

inductive RE where
  | eps
  | cls (p : Char → Bool)
  | cat (a b : RE)
  | alt (a b : RE)
  | opt (a : RE)
  | star (a : RE)
  | wb
  | grp (i : ℕ) (a : RE)

/-- Matcher state: previous character (for `\b`), remaining input,
captured groups collected so far. -/
structure MSt where
  prev : Option Char
  rest : List Char
  caps : List (ℕ × List Char)

def isBoundaryAt (prev : Option Char) (rest : List Char) : Bool :=
  let pw := match prev with | some c => isWordChar c | none => false
  let nw := match rest with | c :: _ => isWordChar c | [] => false
  pw != nw

/-- One level of the matcher, structurally recursive on the regex; `next`
continues a `star` at strictly smaller fuel.  Enumerates all ways the regex
can match a prefix of `st.rest`, in the backtracking priority order of
Python `re` (greedy, first alternative first). -/
def reRunF (next : RE → MSt → List MSt) : RE → MSt → List MSt
  | .eps, st => [st]
  | .cls p, st =>
    match st.rest with
    | [] => []
    | c :: rs => if p c then [⟨some c, rs, st.caps⟩] else []
  | .wb, st => if isBoundaryAt st.prev st.rest then [st] else []
  | .cat a b, st => (reRunF next a st).flatMap (fun st2 => reRunF next b st2)
  | .alt a b, st => reRunF next a st ++ reRunF next b st
  | .opt a, st => reRunF next a st ++ [st]
  | .star a, st =>
      ((reRunF next a st).flatMap (fun st2 =>
        if st2.rest.length < st.rest.length then next (.star a) st2 else [st2])) ++ [st]
  | .grp i a, st =>
      (reRunF next a st).map (fun st2 =>
        ⟨st2.prev, st2.rest, st2.caps ++ [(i, st.rest.take (st.rest.length - st2.rest.length))]⟩)

/-- Full matcher.  `f` is fuel bounding star unrolling; every star body in
the source's patterns consumes at least one character per iteration, so
`rest.length + 1` is always enough fuel. -/
def reRun : ℕ → RE → MSt → List MSt
  | 0, re, st => reRunF (fun _ _ => []) re st
  | f+1, re, st => reRunF (reRun f) re st

/-- A regex match: start and end offsets (relative to the scanned string)
and the captured groups. -/
structure RMatch where
  start : ℕ
  stop : ℕ
  caps : List (ℕ × List Char)

def reTryAt (re : RE) (prev : Option Char) (rest : List Char) :
    Option (ℕ × List (ℕ × List Char)) :=
  match reRun (rest.length + 1) re ⟨prev, rest, []⟩ with
  | [] => none
  | st :: _ => some (rest.length - st.rest.length, st.caps)

def reSearchFrom (re : RE) : Option Char → List Char → ℕ → Option RMatch
  | prev, rest, idx =>
    match reTryAt re prev rest with
    | some (len, caps) => some ⟨idx, idx + len, caps⟩
    | none =>
      match rest with
      | [] => none
      | c :: rs => reSearchFrom re (some c) rs (idx + 1)

/-- Python `re.search`: leftmost match. -/
def reSearch (re : RE) (s : List Char) : Option RMatch :=
  reSearchFrom re none s 0

/-- Python `m.group i` (first capture recorded for index `i`). -/
def capOf (m : RMatch) (i : ℕ) : List Char :=
  ((m.caps.find? (fun p => p.1 = i)).map (fun p => p.2)).getD []

def lit1 (c : Char) : RE := .cls (fun x => x = c)

/-- Case-insensitive single character (Python `re.I`). -/
def litCI (c : Char) : RE := .cls (fun x => x.toLower = c.toLower)

def catList (l : List RE) : RE := l.foldr .cat .eps

def litStr (s : String) : RE := catList (s.data.map lit1)

def litStrCI (s : String) : RE := catList (s.data.map litCI)

def digitC : RE := .cls Char.isDigit

/-- Repetition `a{n}`. -/
def reCount (a : RE) : ℕ → RE
  | 0 => .eps
  | n+1 => .cat a (reCount a n)

/-- Repetition `a{0,n}`, greedy. -/
def reUpTo (a : RE) : ℕ → RE
  | 0 => .eps
  | n+1 => .opt (.cat a (reUpTo a n))

/-- Repetition `a{m,n}`, greedy. -/
def reRange (a : RE) (m n : ℕ) : RE := .cat (reCount a m) (reUpTo a (n - m))

/-- Repetition `a+`, greedy. -/
def rePlus (a : RE) : RE := .cat a (.star a)

/-! ## Normalization (`MONTHS`, `_iso_or_none`, date parsers, `_to_float`) -/

/-- The `MONTHS` dictionary of the source. -/
def MONTHS : String → Option ℕ := fun s =>
  match s with
  | "jan" => some 1 | "january" => some 1
  | "feb" => some 2 | "february" => some 2
  | "mar" => some 3 | "march" => some 3
  | "apr" => some 4 | "april" => some 4
  | "may" => some 5
  | "jun" => some 6 | "june" => some 6
  | "jul" => some 7 | "july" => some 7
  | "aug" => some 8 | "august" => some 8
  | "sep" => some 9 | "sept" => some 9 | "september" => some 9
  | "oct" => some 10 | "october" => some 10
  | "nov" => some 11 | "november" => some 11
  | "dec" => some 12 | "december" => some 12
  | _ => none

def isLeapYear (y : ℤ) : Bool := y % 4 = 0 && (y % 100 ≠ 0 || y % 400 = 0)

def daysInMonth (y m : ℤ) : ℤ :=
  if m = 2 then (if isLeapYear y then 29 else 28)
  else if m = 4 ∨ m = 6 ∨ m = 9 ∨ m = 11 then 30
  else 31

/-- Predicate that `datetime(y, m, d)` construction succeeds: Python's MINYEAR/MAXYEAR and
calendar-validity checks. -/
def validYMD (y m d : ℤ) : Bool :=
  1 ≤ y && y ≤ 9999 && 1 ≤ m && m ≤ 12 && 1 ≤ d && d ≤ daysInMonth y m

/-- Zero-pad to two digits (strftime `%m`, `%d`, `%H`, `%M`, `%S`). -/
def pad2 (n : ℤ) : String :=
  if 0 ≤ n ∧ n < 10 then "0" ++ toString n else toString n

/-- Source `_iso_or_none`: build a date and render `%Y-%m-%d`, `None` when the
calendar date is invalid.  (glibc `%Y` does not zero-pad; all dates in the
claims have four-digit years.) -/
def isoOrNone (y m d : ℤ) : Option String :=
  if validYMD y m d then some (toString y ++ "-" ++ pad2 m ++ "-" ++ pad2 d) else none

/-- Class `[\/\-.]`. -/
def sepCls : RE := .cls (fun c => c = '/' || c = '-' || c = '.')

def wsC : RE := .cls isSpaceChar

/-- Class `[,\s]`. -/
def commaWsC : RE := .cls (fun c => c = ',' || isSpaceChar c)

def alphaC : RE := .cls isAsciiLetter

/-- Group `(?:st|nd|rd|th)?`. -/
def ordSuffix : RE :=
  .opt (.alt (litStr "st") (.alt (litStr "nd") (.alt (litStr "rd") (litStr "th"))))

/-- Pattern `\b(\d{4})[\/\-.](\d{1,2})[\/\-.](\d{1,2})\b`. -/
def reYMD : RE :=
  catList [.wb, .grp 1 (reCount digitC 4), sepCls, .grp 2 (reRange digitC 1 2),
           sepCls, .grp 3 (reRange digitC 1 2), .wb]

/-- Pattern `\b(\d{1,2})(?:st|nd|rd|th)?\s+([A-Za-z]{3,9})[,\s]+(\d{4})\b`. -/
def reDMonY : RE :=
  catList [.wb, .grp 1 (reRange digitC 1 2), ordSuffix, rePlus wsC,
           .grp 2 (reRange alphaC 3 9), rePlus commaWsC, .grp 3 (reCount digitC 4), .wb]

/-- Pattern `\b([A-Za-z]{3,9})\s+(\d{1,2})(?:st|nd|rd|th)?[,\s]+(\d{4})\b`. -/
def reMonDY : RE :=
  catList [.wb, .grp 1 (reRange alphaC 3 9), rePlus wsC,
           .grp 2 (reRange digitC 1 2), ordSuffix, rePlus commaWsC,
           .grp 3 (reCount digitC 4), .wb]

/-- Python `str.lower` (ASCII). -/
def pyLower (s : String) : String := String.mk (s.data.map Char.toLower)

/-- Python `str.strip('.')`. -/
def stripDots (s : String) : String :=
  String.mk (((s.data.dropWhile (· = '.')).reverse.dropWhile (· = '.')).reverse)

def capNat (m : RMatch) (i : ℕ) : ℤ := (digitsToNat (capOf m i) : ℤ)

/-- Source `_parse_yyyy_sep_dd`. -/
def parseYyyySepDd (s : String) : Option String :=
  match reSearch reYMD s.data with
  | none => none
  | some m => isoOrNone (capNat m 1) (capNat m 2) (capNat m 3)

/-- Source `_parse_dd_mon_yyyy`. -/
def parseDdMonYyyy (s : String) : Option String :=
  match reSearch reDMonY s.data with
  | none => none
  | some m =>
    match MONTHS (stripDots (pyLower (String.mk (capOf m 2)))) with
    | some mo => isoOrNone (capNat m 3) (mo : ℤ) (capNat m 1)
    | none => none

/-- Source `_parse_mon_dd_yyyy`. -/
def parseMonDdYyyy (s : String) : Option String :=
  match reSearch reMonDY s.data with
  | none => none
  | some m =>
    match MONTHS (stripDots (pyLower (String.mk (capOf m 1)))) with
    | some mo => isoOrNone (capNat m 3) (mo : ℤ) (capNat m 2)
    | none => none

/-- Source `_parse_date_iso_any`: the `a or b or c` chain (the parsers return
either `None` or a nonempty string, so Python's `or` is `Option.orElse`). -/
def parseDateIsoAny (s : String) : Option String :=
  (parseYyyySepDd s).orElse (fun _ =>
    (parseDdMonYyyy s).orElse (fun _ => parseMonDdYyyy s))

/-! ### `_to_float` -/

def takeDigits (cs : List Char) : List Char × List Char :=
  (cs.takeWhile Char.isDigit, cs.dropWhile Char.isDigit)

/-- The grammar accepted by Python's `float(str)` on the inputs arising
here: optional surrounding whitespace, optional sign, decimal digits with
at most one point, optional exponent.  (`inf`/`nan` and digit-group
underscores are not modelled; no input in the source's data flow uses
them.) -/
def pyFloatStr (s : String) : Option ℚ :=
  let cs := (pyStrip s).data
  let (sgn, cs) : ℚ × List Char :=
    match cs with
    | '+' :: t => (1, t)
    | '-' :: t => (-1, t)
    | t => (1, t)
  let (ip, cs) := takeDigits cs
  let (fp, cs) : Option (List Char) × List Char :=
    match cs with
    | '.' :: t =>
      let (d, r) := takeDigits t
      (some d, r)
    | t => (none, t)
  if ip.isEmpty && (match fp with | some f => f.isEmpty | none => true) then none
  else
    let mant : ℚ := (digitsToNat ip : ℚ) +
      (match fp with
       | some f => (digitsToNat f : ℚ) / ((10 : ℚ) ^ f.length)
       | none => 0)
    match cs with
    | [] => some (sgn * mant)
    | 'e' :: t =>
      let (esgn, t) : ℤ × List Char :=
        match t with
        | '+' :: r => (1, r)
        | '-' :: r => (-1, r)
        | r => (1, r)
      let (ed, t2) := takeDigits t
      if ed.isEmpty ∨ ¬ t2.isEmpty then none
      else some (sgn * mant * (10 : ℚ) ^ (esgn * (digitsToNat ed : ℤ)))
    | 'E' :: t =>
      let (esgn, t) : ℤ × List Char :=
        match t with
        | '+' :: r => (1, r)
        | '-' :: r => (-1, r)
        | r => (1, r)
      let (ed, t2) := takeDigits t
      if ed.isEmpty ∨ ¬ t2.isEmpty then none
      else some (sgn * mant * (10 : ℚ) ^ (esgn * (digitsToNat ed : ℤ)))
    | _ => none

/-- Source `_to_float`: strip currency markers and whitespace, resolve `,`/`.`
separators, parse as a decimal; `None` on failure. -/
def toFloat (numStr : String) : Option ℚ :=
  let s := pyStrip numStr
  let s := pyReplace (pyReplace (pyReplace (pyReplace s "GH₵" "") "GH¢" "") "GHS" "") "GHC" ""
  let s := String.mk (s.data.filter (fun c => ¬ isSpaceChar c))
  let s :=
    if s.data.contains ',' ∧ s.data.contains '.' then
      String.mk (s.data.filter (fun c => c ≠ ','))
    else if s.data.contains ',' then
      String.mk (s.data.map (fun c => if c = ',' then '.' else c))
    else s
  pyFloatStr s

/-! ## Python values and dicts -/

/-- A Python/JSON value as handled by the handlers.  Numbers are modelled
as rationals (ints and floats merged; IEEE rounding not modelled). -/
inductive PyVal where
  | none
  | bool (b : Bool)
  | num (q : ℚ)
  | str (s : String)
  | list (xs : List PyVal)
  | dict (kvs : List (String × PyVal))

/-- A Python dict with string keys, insertion-ordered. -/
abbrev Dict := List (String × PyVal)

/-- Python `d.get(k)` (`None`-vs-missing not distinguished by the callers here,
which treat both alike). -/
def dget : Dict → String → Option PyVal
  | [], _ => Option.none
  | p :: t, k => if p.1 = k then some p.2 else dget t k

/-- Python `d[k] = v`: replace in place when the key exists, else append.
(Python dicts are duplicate-free, so replacing the first occurrence is
replacing the occurrence.) -/
def dset : Dict → String → PyVal → Dict
  | [], k, v => [(k, v)]
  | p :: t, k, v => if p.1 = k then (k, v) :: t else p :: dset t k v

/-- Python `d.setdefault(k, v)`. -/
def dsetdefault : Dict → String → PyVal → Dict
  | [], k, v => [(k, v)]
  | p :: t, k, v => if p.1 = k then p :: t else p :: dsetdefault t k v

def dkeys (d : Dict) : List String := d.map (fun p => p.1)

/-- Python truthiness of the values that occur here. -/
def pyFalsy : PyVal → Bool
  | .none => true
  | .bool b => !b
  | .num q => q = 0
  | .str s => s = ""
  | .list xs => xs.isEmpty
  | .dict kvs => kvs.isEmpty

/-- Python `str(v)` for the values flowing into `str()` in the source.
Strings pass through unchanged (the only case any proof depends on);
numeric and container renderings are best-effort (IEEE float repr is not
modelled) and only ever feed parsers that reject them anyway. -/
def pyStrOf : PyVal → String
  | .none => "None"
  | .bool b => if b then "True" else "False"
  | .str s => s
  | .num q => if q.den = 1 then toString q.num else toString q.num ++ "/" ++ toString q.den
  | .list _ => "[...]"
  | .dict _ => "\x7b...\x7d"

/-- Source `_iso_date`: falsy input is `None`; an exact `\d{4}-\d{2}-\d{2}` match
is validated by reconstruction; anything else goes through the free-text
date scan. -/
def isoShape : List Char → Bool
  | [a, b, c, d, s1, e, f, s2, g, h] =>
    a.isDigit && b.isDigit && c.isDigit && d.isDigit && s1 = '-' &&
    e.isDigit && f.isDigit && s2 = '-' && g.isDigit && h.isDigit
  | _ => false

def isoDate (v : PyVal) : Option String :=
  if pyFalsy v then Option.none
  else
    let s := pyStrOf v
    match s.data with
    | [a, b, c, d, '-', e, f, '-', g, h] =>
      if isoShape [a, b, c, d, '-', e, f, '-', g, h] then
        isoOrNone (digitsToNat [a, b, c, d] : ℤ) (digitsToNat [e, f] : ℤ) (digitsToNat [g, h] : ℤ)
      else parseDateIsoAny s
    | _ => parseDateIsoAny s

/-- Source `_norm_currency`. -/
def normCurrency (v : PyVal) : Option String :=
  if pyFalsy v then Option.none
  else
    let c := pyStrip (String.mk ((pyStrOf v).data.map Char.toUpper))
    if c = "USD" ∨ c = "EUR" ∨ c = "GBP" ∨ c = "GHS" ∨ c = "NGN" ∨ c = "ZAR" then some c
    else if c = "$" ∨ c = "USD$" then some "USD"
    else if c = "€" ∨ c = "EUR€" then some "EUR"
    else if c = "£" ∨ c = "GBP£" then some "GBP"
    else if c = "GH₵" ∨ c = "GH¢" ∨ c = "GHC" then some "GHS"
    else if c = "₦" then some "NGN"
    else some c

/-! ## JSON parsing (`json.loads`) -/

def jWs (cs : List Char) : List Char :=
  cs.dropWhile (fun c => c = ' ' || c = '\t' || c = '\n' || c = '\r')

def jHexVal (c : Char) : Option ℕ :=
  if c.isDigit then some (c.toNat - 48)
  else if 97 ≤ c.toLower.toNat ∧ c.toLower.toNat ≤ 102 then some (c.toLower.toNat - 87)
  else Option.none

/-- JSON string body after the opening quote; returns content and rest.
Fuel-structural; each step consumes input, `length + 1` suffices. -/
def jParseStrAux : ℕ → List Char → Option (List Char × List Char)
  | 0, _ => Option.none
  | f+1, cs =>
    match cs with
    | [] => Option.none
    | '"' :: t => some ([], t)
    | '\\' :: e :: t =>
      (match e with
       | '"' => (jParseStrAux f t).map (fun p => ('"' :: p.1, p.2))
       | '\\' => (jParseStrAux f t).map (fun p => ('\\' :: p.1, p.2))
       | '/' => (jParseStrAux f t).map (fun p => ('/' :: p.1, p.2))
       | 'b' => (jParseStrAux f t).map (fun p => ('\x08' :: p.1, p.2))
       | 'f' => (jParseStrAux f t).map (fun p => ('\x0c' :: p.1, p.2))
       | 'n' => (jParseStrAux f t).map (fun p => ('\n' :: p.1, p.2))
       | 'r' => (jParseStrAux f t).map (fun p => ('\r' :: p.1, p.2))
       | 't' => (jParseStrAux f t).map (fun p => ('\t' :: p.1, p.2))
       | 'u' =>
         (match t with
          | h1 :: h2 :: h3 :: h4 :: t2 =>
            (match jHexVal h1, jHexVal h2, jHexVal h3, jHexVal h4 with
             | some a, some b, some c, some d =>
               let n := ((a * 16 + b) * 16 + c) * 16 + d
               if hv : n < 0xd800 then
                 (jParseStrAux f t2).map (fun p => (Char.ofNatAux n (Or.inl hv) :: p.1, p.2))
               else Option.none
             | _, _, _, _ => Option.none)
          | _ => Option.none)
       | _ => Option.none)
    | c :: t =>
      if c.toNat < 32 then Option.none
      else (jParseStrAux f t).map (fun p => (c :: p.1, p.2))

/-- JSON number (sign, integer part without leading zeros, fraction,
exponent) to a rational. -/
def jParseNum (cs : List Char) : Option (ℚ × List Char) :=
  let (sgn, cs1) : ℚ × List Char :=
    match cs with
    | '-' :: t => (-1, t)
    | t => (1, t)
  let (ip, cs2) := takeDigits cs1
  if ip.isEmpty then Option.none
  else if ip.length > 1 ∧ ip.headD '0' = '0' then Option.none
  else
    let (fp, cs3) : List Char × List Char :=
      match cs2 with
      | '.' :: t => takeDigits t
      | _ => ([], cs2)
    if (match cs2 with | '.' :: _ => fp.isEmpty | _ => false) then Option.none
    else
      let base : ℚ := (digitsToNat ip : ℚ) + (digitsToNat fp : ℚ) / ((10 : ℚ) ^ fp.length)
      match cs3 with
      | 'e' :: t =>
        let (esgn, t1) : ℤ × List Char :=
          match t with
          | '+' :: r => (1, r)
          | '-' :: r => (-1, r)
          | r => (1, r)
        let (ed, t2) := takeDigits t1
        if ed.isEmpty then Option.none
        else some (sgn * base * (10 : ℚ) ^ (esgn * (digitsToNat ed : ℤ)), t2)
      | 'E' :: t =>
        let (esgn, t1) : ℤ × List Char :=
          match t with
          | '+' :: r => (1, r)
          | '-' :: r => (-1, r)
          | r => (1, r)
        let (ed, t2) := takeDigits t1
        if ed.isEmpty then Option.none
        else some (sgn * base * (10 : ℚ) ^ (esgn * (digitsToNat ed : ℤ)), t2)
      | _ => some (sgn * base, cs3)

/-- Parser mode: a JSON value, the elements of an array being built, or
the members of an object being built. -/
inductive JMode where
  | val
  | arr (acc : List PyVal)
  | obj (acc : Dict)

/-- JSON parser, a single function structurally recursive on fuel so that
concrete parses reduce definitionally.  `8 * (length + 1)` fuel always
suffices (every few steps consume input). -/
def jParseGo : ℕ → JMode → List Char → Option (PyVal × List Char)
  | 0, _, _ => Option.none
  | f+1, .val, cs =>
    (match jWs cs with
     | 'n' :: 'u' :: 'l' :: 'l' :: t => some (.none, t)
     | 't' :: 'r' :: 'u' :: 'e' :: t => some (.bool true, t)
     | 'f' :: 'a' :: 'l' :: 's' :: 'e' :: t => some (.bool false, t)
     | '"' :: t => (jParseStrAux (t.length + 1) t).map (fun p => (.str (String.mk p.1), p.2))
     | '\x7b' :: t =>
       (match jWs t with
        | '\x7d' :: r => some (.dict [], r)
        | _ => jParseGo f (.obj []) t)
     | '[' :: t =>
       (match jWs t with
        | ']' :: r => some (.list [], r)
        | _ => jParseGo f (.arr []) t)
     | cs1 => (jParseNum cs1).map (fun p => (.num p.1, p.2)))
  | f+1, .arr acc, cs =>
    (match jParseGo f .val cs with
     | Option.none => Option.none
     | some (v, r) =>
       match jWs r with
       | ',' :: t => jParseGo f (.arr (acc ++ [v])) t
       | ']' :: t => some (.list (acc ++ [v]), t)
       | _ => Option.none)
  | f+1, .obj acc, cs =>
    (match jWs cs with
     | '"' :: t =>
       (match jParseStrAux (t.length + 1) t with
        | Option.none => Option.none
        | some (k, r) =>
          match jWs r with
          | ':' :: r2 =>
            (match jParseGo f .val r2 with
             | Option.none => Option.none
             | some (v, r3) =>
               match jWs r3 with
               | ',' :: r4 => jParseGo f (.obj (dset acc (String.mk k) v)) r4
               | '\x7d' :: r4 => some (.dict (dset acc (String.mk k) v), r4)
               | _ => Option.none)
          | _ => Option.none)
     | _ => Option.none)

/-- Python `json.loads`, returning `None` instead of raising. -/
def jsonLoads (s : String) : Option PyVal :=
  match jParseGo (8 * (s.data.length + 1)) .val s.data with
  | some (v, rest) => if (jWs rest).isEmpty then some v else Option.none
  | Option.none => Option.none

/-! ## `_extract_json_anywhere` and `_llm_extract_fields` -/

/-- Index of the last occurrence of `c`. -/
def lastIdxOf (c : Char) (cs : List Char) : Option ℕ :=
  match (cs.reverse.findIdx? (fun x => x = c)) with
  | some j => some (cs.length - 1 - j)
  | Option.none => Option.none

/-- Source `_extract_json_anywhere`: the greedy regex `\{[\s\S]*\}` takes the
substring from the first `\x7b` to the last `\x7d`, then `json.loads` it;
`None` on any failure. -/
def extractJsonAnywhere (s : String) : Option PyVal :=
  let cs := s.data
  match cs.findIdx? (fun x => x = '\x7b') with
  | Option.none => Option.none
  | some i =>
    if (cs.drop (i + 1)).contains '\x7d' then
      match lastIdxOf '\x7d' cs with
      | some j => jsonLoads (String.mk ((cs.drop i).take (j - i + 1)))
      | Option.none => Option.none
    else Option.none

def isTextBlock (v : PyVal) : Bool :=
  match v with
  | .dict bk =>
    (match dget bk "type" with
     | some (.str s) => s = "text"
     | _ => false)
  | _ => false

def blockTextVal (v : PyVal) : PyVal :=
  match v with
  | .dict bk => (dget bk "text").getD (.str "")
  | _ => .str ""

def asStr : PyVal → Option String
  | .str s => some s
  | _ => Option.none

/-- The parsing tail of `_llm_extract_fields` (source lines 222-251),
applied to the raw Bedrock reply body.  A structured Anthropic reply's
text segments are joined with newlines and mined for a JSON object; then
the raw body is mined; any exception degrades to the raw-body path; the
result is always a dict (possibly empty). -/
def llmParseReply (raw : String) : Dict :=
  let rawMine : Dict :=
    match extractJsonAnywhere raw with
    | some (.dict j) => j
    | _ => []
  match jsonLoads raw with
  | some (.dict out) =>
    (match dget out "content" with
     | some (.list blocks) =>
       let segs := blocks.filter isTextBlock
       let vals := segs.map blockTextVal
       if vals.all (fun v => (asStr v).isSome) then
         -- "\n".join of the segment texts
         let textBlock := pyJoin "\n" (vals.map (fun v => (asStr v).getD ""))
         let parsed : Dict :=
           match extractJsonAnywhere textBlock with
           | some (.dict j) => j
           | _ => []
         if parsed.isEmpty then rawMine else parsed
       else
         -- non-string "text" segment: `"\n".join` raises, except-path mines raw
         rawMine
     | _ => rawMine)
  | _ => rawMine

/-- Modelled from the spec: response-shape handling as the spec words it,
with "the first top-level `\x7b...\x7d` substring" (first opening brace to
its matching closing brace) in place of the code's greedy first-to-last
brace span.  Used only to compare the code against the spec's words. -/
def specFirstTopLevelSpan : List Char → ℕ → List Char → Option (List Char)
  | [], _, _ => Option.none
  | c :: t, d, acc =>
    if c = '\x7b' then specFirstTopLevelSpan t (d + 1) (acc ++ [c])
    else if c = '\x7d' then
      (if d = 1 then some (acc ++ [c]) else
       if d = 0 then Option.none else specFirstTopLevelSpan t (d - 1) (acc ++ [c]))
    else specFirstTopLevelSpan t d (acc ++ [c])

/-- Modelled from the spec: parse the first top-level brace block. -/
def specExtractFirstTopLevel (s : String) : Option PyVal :=
  match s.data.dropWhile (fun c => c ≠ '\x7b') with
  | [] => Option.none
  | cs => (specFirstTopLevelSpan cs 0 []).bind (fun span => jsonLoads (String.mk span))

/-- Modelled from the spec: the three tolerated reply shapes in priority
order, using the first-top-level-brace extraction the spec describes. -/
def specLlmParse (raw : String) : Dict :=
  let rawMine : Dict :=
    match specExtractFirstTopLevel raw with
    | some (.dict j) => j
    | _ => []
  match jsonLoads raw with
  | some (.dict out) =>
    (match dget out "content" with
     | some (.list blocks) =>
       let segs := blocks.filter isTextBlock
       let vals := segs.map blockTextVal
       if vals.all (fun v => (asStr v).isSome) then
         let textBlock := pyJoin "\n" (vals.map (fun v => (asStr v).getD ""))
         let parsed : Dict :=
           match specExtractFirstTopLevel textBlock with
           | some (.dict j) => j
           | _ => []
         if parsed.isEmpty then rawMine else parsed
       else rawMine
     | _ => rawMine)
  | _ => rawMine

/-! ## Rule fallback (`_rule_fallback`) -/

/-- Source `SCHEMA_KEYS`. -/
def SCHEMA_KEYS : List String :=
  ["provider", "amount", "currency", "due_date", "account_number",
   "invoice_number", "period_start", "period_end"]

/-- Pattern `\bGHS\b|GH₵|GH¢|GHC` with `re.I`. -/
def reGHS : RE :=
  .alt (catList [.wb, litStrCI "GHS", .wb])
    (.alt (litStrCI "GH₵") (.alt (litStrCI "GH¢") (litStrCI "GHC")))

/-- Pattern `\bUSD\b|\$` (case-sensitive). -/
def reUSD : RE := .alt (catList [.wb, litStr "USD", .wb]) (lit1 '$')

/-- Pattern `\bEUR\b|€`. -/
def reEUR : RE := .alt (catList [.wb, litStr "EUR", .wb]) (lit1 '€')

/-- Pattern `\bGBP\b|£`. -/
def reGBP : RE := .alt (catList [.wb, litStr "GBP", .wb]) (lit1 '£')

def hasMatch (re : RE) (s : String) : Bool := (reSearch re s.data).isSome

/-- Label pattern `(amount\s*(?:due|payable)|total\s*(?:due|amount|payable)|balance\s*due|grand\s*total)`
with `re.I`. -/
def reLabel : RE :=
  .grp 1 (.alt (catList [litStrCI "amount", .star wsC, .alt (litStrCI "due") (litStrCI "payable")])
    (.alt (catList [litStrCI "total", .star wsC,
            .alt (litStrCI "due") (.alt (litStrCI "amount") (litStrCI "payable"))])
      (.alt (catList [litStrCI "balance", .star wsC, litStrCI "due"])
        (catList [litStrCI "grand", .star wsC, litStrCI "total"]))))

/-- Numeric-token pattern `([0-9]{1,3}(?:[,\s][0-9]{3})*(?:[.,][0-9]{2})|[0-9]+(?:[.,][0-9]{2})?)`. -/
def dotCommaC : RE := .cls (fun c => c = '.' || c = ',')

def reNumTok : RE :=
  .grp 1 (.alt
    (catList [reRange digitC 1 3, .star (catList [commaWsC, reCount digitC 3]),
              dotCommaC, reCount digitC 2])
    (catList [rePlus digitC, .opt (catList [dotCommaC, reCount digitC 2])]))

/-- The `for m in re.finditer(label): tail = text[m.end():m.end()+160];
n = re.search(numtok, tail); if n: res["amount"] = _to_float(n.group(1)); break`
loop: returns `some r` when some label match has a numeric token within the
next 160 characters (`r` being `_to_float` of that token, itself possibly
`None`), and `none` when the loop falls through.  `fuel` only bounds the
recursion; label matches are nonempty, so `rest.length + 1` suffices. -/
def ruleAmountLoop : ℕ → List Char → Option (Option ℚ)
  | 0, _ => Option.none
  | fuel+1, rest =>
    match reSearch reLabel rest with
    | Option.none => Option.none
    | some m =>
      let tail := (rest.drop m.stop).take 160
      match reSearch reNumTok tail with
      | some n => some (toFloat (String.mk (capOf n 1)))
      | Option.none =>
        if m.stop = 0 then Option.none else ruleAmountLoop fuel (rest.drop m.stop)

/-- Python `str.splitlines()` (modelling `\n` line ends, the only
terminator in the texts involved). -/
def pySplitlines (s : String) : List String :=
  if s = "" then []
  else
    let parts := pySplit s "\n"
    if pyEndsWith s "\n" then parts.dropLast else parts

/-- Pattern `\b(invoice|bill|statement)\b` with `re.I`. -/
def reProviderNoise : RE :=
  catList [.wb, .grp 1 (.alt (litStrCI "invoice") (.alt (litStrCI "bill") (litStrCI "statement"))), .wb]

/-- Python `re.sub(pat, "", head)`: delete every (non-overlapping, leftmost) match.
`prev` carries the character before `rest` so `\b` keeps its meaning across
the cut; fuel bounds recursion (matches are nonempty). -/
def reSubEmpty (re : RE) : ℕ → Option Char → List Char → List Char
  | 0, _, rest => rest
  | fuel+1, prev, rest =>
    match reSearchFrom re prev rest 0 with
    | Option.none => rest
    | some m =>
      if m.stop = 0 then rest
      else
        rest.take m.start ++
          reSubEmpty re fuel ((rest.drop (m.stop - 1)).head? ) (rest.drop m.stop)

/-- Stable insertion into a length-descending list.  `sortDescLen` folds
from the right, so the element being inserted precedes the sorted tail in
the original list: placing it before equal-length elements reproduces the
stability of Python's `list.sort(key=len, reverse=True)` (ties keep their
original order). -/
def insertDescLen (x : String) : List String → List String
  | [] => [x]
  | y :: ys => if y.length ≤ x.length then x :: y :: ys else y :: insertDescLen x ys

def sortDescLen : List String → List String
  | [] => []
  | x :: xs => insertDescLen x (sortDescLen xs)

/-- Lines 265-269: provider heuristic over the first 10 lines. -/
def providerOf (text : String) : Option String :=
  let head := pyJoin "\n" ((pySplitlines text).take 10)
  let head := String.mk (reSubEmpty reProviderNoise (head.length + 1) Option.none head.data)
  let lines := ((pySplitlines head).filter
      (fun ln => ln.data.any isAsciiLetter)).map pyStrip
  match sortDescLen lines with
  | [] => Option.none
  | l :: _ => some l

def optNumVal : Option ℚ → PyVal
  | some q => .num q
  | Option.none => .none

def optStrVal : Option String → PyVal
  | some s => .str s
  | Option.none => .none

/-- Currency detection step (lines 256-259). -/
def ruleCurrencyStep (text : String) (d : Dict) : Dict :=
  if hasMatch reGHS text then dset d "currency" (.str "GHS")
  else if hasMatch reUSD text then dset d "currency" (.str "USD")
  else if hasMatch reEUR text then dset d "currency" (.str "EUR")
  else if hasMatch reGBP text then dset d "currency" (.str "GBP")
  else d

/-- Amount detection step (lines 260-263). -/
def ruleAmountStep (text : String) (d : Dict) : Dict :=
  match ruleAmountLoop (text.data.length + 1) text.data with
  | some r => dset d "amount" (optNumVal r)
  | Option.none => d

/-- Due-date step (line 264). -/
def ruleDueStep (text : String) (d : Dict) : Dict :=
  dset d "due_date" (optStrVal (parseDateIsoAny text))

/-- Provider step (lines 265-269). -/
def ruleProviderStep (text : String) (d : Dict) : Dict :=
  match providerOf text with
  | some p => dset d "provider" (.str p)
  | Option.none => d

/-- Source `_rule_fallback`. -/
def ruleFallback (text : String) : Dict :=
  ruleProviderStep text (ruleDueStep text (ruleAmountStep text
    (ruleCurrencyStep text (SCHEMA_KEYS.map (fun k => (k, PyVal.none))))))

/-! ## Extraction orchestrator (`lambda_handler` of ExtractBillFieldsFn) -/

/-- Source `_ext`. -/
def extOf (name : String) : String :=
  let n := pyLower name
  (([".pdf", ".tif", ".tiff", ".png", ".jpg", ".jpeg"].find?
    (fun e => pyEndsWith n e)).getD "")

/-- Python `float(v)` on a value (TypeError on containers modelled as
failure). -/
def pyFloatOfVal : PyVal → Option ℚ
  | .num q => some q
  | .bool b => some (if b then 1 else 0)
  | .str s => pyFloatStr s
  | _ => Option.none

/-- Line 322-323: `for k in SCHEMA_KEYS: fields.setdefault(k, None)`. -/
def finalizeSetdefaults (d : Dict) : Dict :=
  SCHEMA_KEYS.foldl (fun d k => dsetdefault d k .none) d

/-- Lines 324-327: `float(v)`, falling back to `_to_float(str(v))`. -/
def finalizeAmount (d : Dict) : Dict :=
  match dget d "amount" with
  | some .none => d
  | Option.none => d
  | some v =>
    dset d "amount"
      (match pyFloatOfVal v with
       | some q => .num q
       | Option.none => optNumVal (toFloat (pyStrOf v)))

/-- Line 328. -/
def finalizeCurrency (d : Dict) : Dict :=
  dset d "currency" (optStrVal (normCurrency ((dget d "currency").getD .none)))

/-- Lines 329-330 for one date key. -/
def finalizeDate (key : String) (d : Dict) : Dict :=
  dset d key (optStrVal (isoDate ((dget d key).getD .none)))

/-- Lines 331-332. -/
def finalizePeriod (d : Dict) : Dict :=
  let period :=
    match dget d "period_start", dget d "period_end" with
    | some ps, some pe =>
      if !pyFalsy ps && !pyFalsy pe then PyVal.str (pyStrOf ps ++ " to " ++ pyStrOf pe)
      else PyVal.none
    | _, _ => PyVal.none
  dset d "period" period

/-- Lines 321-332: default every schema key, then normalize amount,
currency and the three date fields, then derive `period`. -/
def finalizeFields (fields0 : Dict) : Dict :=
  finalizePeriod (finalizeDate "period_end" (finalizeDate "period_start"
    (finalizeDate "due_date" (finalizeCurrency (finalizeAmount
      (finalizeSetdefaults fields0))))))

/-- Textract `JobStatus` polling loop of `_textract_async` (lines 85-94):
poll, stop on `SUCCEEDED`, raise on `FAILED`/`PARTIAL_SUCCESS`, sleep 2s
and raise `TimeoutError` once the waited time reaches `maxWait`. -/
inductive PollOutcome where
  | succeeded
  | sourceFailed (status : String)
  | timedOut
  deriving DecidableEq

def pollLoop (status : ℕ → String) (maxWait : ℕ) (i waited : ℕ) : PollOutcome :=
  if status i = "SUCCEEDED" then .succeeded
  else if status i = "FAILED" ∨ status i = "PARTIAL_SUCCESS" then .sourceFailed (status i)
  else if maxWait ≤ waited + 2 then .timedOut
  else pollLoop status maxWait (i + 1) (waited + 2)
  termination_by maxWait - waited
  decreasing_by omega

/-- The external collaborators of one extraction request: the Bedrock reply
body (`none` models a transport exception from `invoke_model`), the
synchronous Textract result (`none` models an exception), the asynchronous
job-status sequence and its final text/page result. -/
structure World where
  llmReply : Option String
  syncRes : Option (String × ℕ)
  asyncStatus : ℕ → String
  asyncRes : String × ℕ

/-- The request body fields the handler reads. -/
structure ExtractBody where
  raw_text : Option String := Option.none
  bucket : Option String := Option.none
  key : Option String := Option.none

/-- Handler result, tagged by the HTTP status the source would return
(200 / 400 / 504 / 500).  The 200 payload keeps the fields record apart
from the `pages`/`source`/`text_preview` metadata spread into the body. -/
inductive ExtractRes where
  | ok (fields : Dict) (pages : ℕ) (srcMode : String) (textPrev : String)
  | badRequest (msg : String)
  | gatewayTimeout (msg : String)
  | serverError (msg : String)

/-- Python falsiness of `body.get(k)` for an optional string field. -/
def optStrFalsy : Option String → Bool
  | Option.none => true
  | some s => s = ""

/-- Source `fields` selection and normalization (lines 308-332): LLM-first, rule
fallback when the LLM result is empty, then `finalizeFields`. -/
def llmFieldsOf (w : World) : Dict :=
  match w.llmReply with
  | Option.none => []
  | some raw => llmParseReply raw

def extractCore (w : World) (text : String) (pages : ℕ) (srcMode : String) : ExtractRes :=
  let fields := llmFieldsOf w
  let fields := if fields.isEmpty then ruleFallback text else fields
  .ok (finalizeFields fields) pages srcMode (String.mk (text.data.take 4000))

/-- Source `lambda_handler` (lines 273-352) for a parsed request body: choose the
text source (inline text wins; else a complete `bucket`/`key` reference is
required; async Textract for pdf/tiff, sync otherwise), then extract.
`TimeoutError` maps to 504, other OCR failures to 500. -/
def extractHandler (w : World) (b : ExtractBody) : ExtractRes :=
  let raw := pyStrip ((b.raw_text).getD "")
  if raw ≠ "" then extractCore w raw 1 "raw"
  else if optStrFalsy b.bucket || optStrFalsy b.key then
    .badRequest "Provide raw_text or \x7bbucket,key\x7d."
  else
    let key := (b.key).getD ""
    let ext := extOf key
    if ext = ".pdf" ∨ ext = ".tif" ∨ ext = ".tiff" then
      match pollLoop w.asyncStatus 60 0 0 with
      | .timedOut => .gatewayTimeout "Textract async job not finished after 60s."
      | .sourceFailed st => .serverError ("Textract job ended with status: " ++ st)
      | .succeeded => extractCore w (w.asyncRes).1 (w.asyncRes).2 "s3"
    else
      match w.syncRes with
      | Option.none => .serverError "textract detect_document_text failed"
      | some (text, pages) => extractCore w text pages "s3"

/-! ## Scheduling engine (`lambda_handler` of ScheduleRemindersFn) -/

/-- Gregorian `days_from_civil` (proleptic Gregorian date to days since 1970-01-01). -/
def daysFromCivil (y m d : ℤ) : ℤ :=
  let y1 := if m ≤ 2 then y - 1 else y
  let era := Int.fdiv y1 400
  let yoe := y1 - era * 400
  let mp := if 2 < m then m - 3 else m + 9
  let doy := Int.fdiv (153 * mp + 2) 5 + d - 1
  let doe := yoe * 365 + Int.fdiv yoe 4 - Int.fdiv yoe 100 + doy
  era * 146097 + doe - 719468

/-- Gregorian `civil_from_days` (inverse of `daysFromCivil`). -/
def civilFromDays (z0 : ℤ) : ℤ × ℤ × ℤ :=
  let z := z0 + 719468
  let era := Int.fdiv z 146097
  let doe := z - era * 146097
  let yoe := Int.fdiv (doe - Int.fdiv doe 1460 + Int.fdiv doe 36524 - Int.fdiv doe 146096) 365
  let y := yoe + era * 400
  let doy := doe - (365 * yoe + Int.fdiv yoe 4 - Int.fdiv yoe 100)
  let mp := Int.fdiv (5 * doy + 2) 153
  let d := doy - Int.fdiv (153 * mp + 2) 5 + 1
  let m := if mp < 10 then mp + 3 else mp - 9
  (if m ≤ 2 then y + 1 else y, m, d)

/-- UTC instant (seconds since the epoch) of `datetime(y, m, d, hour)`. -/
def dueInstant (y m d hour : ℤ) : ℤ := daysFromCivil y m d * 86400 + hour * 3600

/-- Python `when.strftime("%Y-%m-%dT%H:%M:%SZ")` of a UTC instant. -/
def fmtInstantISO (t : ℤ) : String :=
  let days := Int.fdiv t 86400
  let sod := Int.emod t 86400
  let ymd := civilFromDays days
  toString ymd.1 ++ "-" ++ pad2 ymd.2.1 ++ "-" ++ pad2 ymd.2.2 ++ "T" ++
    pad2 (sod / 3600) ++ ":" ++ pad2 ((sod % 3600) / 60) ++ ":" ++ pad2 (sod % 60) ++ "Z"

def pad4 (n : ℤ) : String :=
  if 0 ≤ n ∧ n < 10 then "000" ++ toString n
  else if 0 ≤ n ∧ n < 100 then "00" ++ toString n
  else if 0 ≤ n ∧ n < 1000 then "0" ++ toString n
  else toString n

/-- Python `dt.date().isoformat()`. -/
def fmtDateISO (days : ℤ) : String :=
  let ymd := civilFromDays days
  pad4 ymd.1 ++ "-" ++ pad2 ymd.2.1 ++ "-" ++ pad2 ymd.2.2

/-- A `ReminderEvent` of the plan (lines 34-38). -/
structure REv where
  when : String
  type : String
  offset_days : ℤ
  deriving DecidableEq

/-- One plan entry for offset `off`. -/
def mkEv (dt : ℤ) (off : ℤ) : REv :=
  { when := fmtInstantISO (dt - off * 86400)
    type := if off = 0 then "due-day" else "reminder"
    offset_days := off }

/-- The plan built by the `for off in offsets` loop (lines 30-38) when no
iteration overflows; the handler guards it with `offsetsInRange` below,
mirroring the `OverflowError` the loop raises otherwise. -/
def buildPlan (dt : ℤ) (offsets : List ℤ) : List REv :=
  offsets.map (mkEv dt)

/-- Instant of `datetime.min` (0001-01-01T00:00:00 UTC). -/
def datetimeMinInstant : ℤ := daysFromCivil 1 1 1 * 86400

/-- Instant of `datetime.max` at this model's whole-second granularity
(9999-12-31T23:59:59; the `.999999` microseconds cannot matter, every
instant here is a whole second). -/
def datetimeMaxInstant : ℤ := daysFromCivil 9999 12 31 * 86400 + 86399

/-- Predicate that `dt - timedelta(days=off)` succeeds: the result stays
within `datetime`'s representable range (years 1-9999).  The separate
`timedelta` magnitude bound (999999999 days) only trips when the result is
far outside this range anyway, so for in-range `dt` this check subsumes
it and the observable behavior (OverflowError) is identical. -/
def instantInRange (t : ℤ) : Bool :=
  datetimeMinInstant ≤ t && t ≤ datetimeMaxInstant

/-- The loop's overflow behavior: Python raises `OverflowError` at the
first offset whose reminder instant leaves the datetime range, discarding
the whole plan (`&&` short-circuits like the raise; either way the handler
returns 500 with no events). -/
def offsetsInRange (dt : ℤ) : List ℤ → Bool
  | [] => true
  | off :: rest => instantInRange (dt - off * 86400) && offsetsInRange dt rest

/-- Python `int(x)` on a plain (optionally signed) digit string, as produced by
splitting a date literal. -/
def pyIntStr (s : String) : Option ℤ :=
  let cs := (pyStrip s).data
  let (sgn, ds) : ℤ × List Char :=
    match cs with
    | '+' :: t => (1, t)
    | '-' :: t => (-1, t)
    | t => (1, t)
  if ds.isEmpty || !ds.all Char.isDigit then Option.none
  else some (sgn * (digitsToNat ds : ℤ))

/-- Source `y, m, d = [int(x) for x in due_date.split('-')]` (exactly three parts;
any other shape raises). -/
def parseDueParts (s : String) : Option (ℤ × ℤ × ℤ) :=
  match (pySplit s "-").map pyIntStr with
  | [some y, some m, some d] => some (y, m, d)
  | _ => Option.none

/-- Predicate that `datetime(y, m, d, hour, 0, 0)` succeeds. -/
def validYMDH (y m d hour : ℤ) : Bool :=
  validYMD y m d && 0 ≤ hour && hour ≤ 23

/-- Python `datetime.fromisoformat(due.replace('Z','+00:00')).astimezone(utc)` for
the common `YYYY-MM-DDTHH:MM[:SS][±HH:MM]` shapes (naive stamps are read as
UTC, the lambda's locale).  No claim exercises this branch; it is modelled
so the handler stays total and faithful in structure. -/
def parseIsoTsUTC (s0 : String) : Option ℤ :=
  let s := pyReplace s0 "Z" "+00:00"
  match pySplit s "T" with
  | [ds, ts] =>
    (match (pySplit ds "-").map pyIntStr with
     | [some y, some m, some d] =>
       if !validYMD y m d then Option.none
       else
         let core (hh mm ss : ℤ) (off : ℤ) : Option ℤ :=
           if 0 ≤ hh ∧ hh ≤ 23 ∧ 0 ≤ mm ∧ mm ≤ 59 ∧ 0 ≤ ss ∧ ss ≤ 59 then
             -- .astimezone(utc) itself raises OverflowError when the
             -- offset-adjusted instant leaves the datetime range
             let t := daysFromCivil y m d * 86400 + hh * 3600 + mm * 60 + ss - off
             if instantInRange t then some t else Option.none
           else Option.none
         let splitOff (t : String) : String × ℤ :=
           match pySplit t "+" with
           | [base, o] =>
             (match (pySplit o ":").map pyIntStr with
              | [some oh, some om] => (base, oh * 3600 + om * 60)
              | _ => (t, 0))
           | _ => (t, 0)
         let (base, off) := splitOff ts
         match (pySplit base ":").map pyIntStr with
         | [some hh, some mm] => core hh mm 0 off
         | [some hh, some mm, some ss] => core hh mm ss off
         | _ => Option.none
     | _ => Option.none)
  | _ => Option.none

/-- The schedule request body fields the handler reads. -/
structure SchedBody where
  due_date : Option String := Option.none
  userId : Option String := Option.none
  billId : Option String := Option.none
  offsets_days : Option (List ℤ) := Option.none
  hour : Option ℤ := Option.none

/-- The DynamoDB item written by `put_item`. -/
structure SchedItem where
  pk : String
  sk : String
  dueDate : String
  plan : List REv
  deriving DecidableEq

inductive SchedRes where
  | ok (plan : List REv) (item : SchedItem)
  | badRequest (msg : String)
  | serverError
  deriving DecidableEq

/-- Python `x or default` for optional string fields ('' is falsy). -/
def orDefault (v : Option String) (dflt : String) : String :=
  match v with
  | Option.none => dflt
  | some s => if s = "" then dflt else s

/-- Source `lambda_handler` of ScheduleRemindersFn for a parsed body. -/
def scheduleHandler (b : SchedBody) : SchedRes :=
  if optStrFalsy b.due_date then .badRequest "due_date required"
  else
    let due := (b.due_date).getD ""
    let userId := orDefault b.userId "demo"
    let billId := orDefault b.billId "bill-001"
    let offsets := (b.offsets_days).getD [7, 3, 0]
    let hour := (b.hour).getD 9
    let dtOpt : Option ℤ :=
      if due.data.contains 'T' then parseIsoTsUTC due
      else
        match parseDueParts due with
        | some (y, m, d) =>
          if validYMDH y m d hour then some (dueInstant y m d hour) else Option.none
        | Option.none => Option.none
    match dtOpt with
    | Option.none => .serverError
    | some dt =>
      -- the `for off in offsets` loop: OverflowError on an out-of-range
      -- reminder instant is caught by the blanket except → 500, no plan
      if offsetsInRange dt offsets then
        let plan := buildPlan dt offsets
        .ok plan
          { pk := userId ++ "#" ++ billId, sk := "v1",
            dueDate := fmtDateISO (Int.fdiv dt 86400), plan := plan }
      else .serverError

/-! ## Dict lemmas -/

theorem dget_dset_self (d : Dict) (k : String) (v : PyVal) :
    dget (dset d k v) k = some v := by
  induction d with
  | nil => simp [dget, dset]
  | cons p t ih =>
    by_cases h : p.1 = k
    · simp [dget, dset, h]
    · simp [dget, dset, h, ih]

theorem dget_dset_ne (d : Dict) (k k' : String) (v : PyVal) (h : k' ≠ k) :
    dget (dset d k v) k' = dget d k' := by
  induction d with
  | nil =>
    have : ¬ k = k' := fun hh => h hh.symm
    simp [dget, dset, this]
  | cons p t ih =>
    by_cases hp : p.1 = k
    · have : ¬ k = k' := fun hh => h hh.symm
      simp [dget, dset, hp, this]
    · simp only [dset, if_neg hp]
      by_cases hp' : p.1 = k'
      · simp [dget, hp']
      · simp [dget, hp', ih]

theorem dkeys_cons (p : String × PyVal) (t : Dict) :
    dkeys (p :: t) = p.1 :: dkeys t := rfl

theorem dkeys_dset_of_mem (d : Dict) (k : String) (v : PyVal) (h : k ∈ dkeys d) :
    dkeys (dset d k v) = dkeys d := by
  induction d with
  | nil => simp [dkeys] at h
  | cons p t ih =>
    by_cases hp : p.1 = k
    · simp [dset, hp, dkeys_cons]
    · have ht : k ∈ dkeys t := by
        rw [dkeys_cons, List.mem_cons] at h
        rcases h with h | h
        · exact absurd h.symm hp
        · exact h
      simp only [dset, if_neg hp]
      rw [dkeys_cons, dkeys_cons, ih ht]

theorem dkeys_dset_of_not_mem (d : Dict) (k : String) (v : PyVal) (h : k ∉ dkeys d) :
    dkeys (dset d k v) = dkeys d ++ [k] := by
  induction d with
  | nil => simp [dset, dkeys]
  | cons p t ih =>
    have hp : p.1 ≠ k := by
      intro hh
      exact h (by rw [dkeys_cons, hh]; exact List.mem_cons_self k _)
    have ht : k ∉ dkeys t := by
      intro hh
      exact h (by rw [dkeys_cons]; exact List.mem_cons_of_mem _ hh)
    simp only [dset, if_neg hp]
    rw [dkeys_cons, dkeys_cons, ih ht]
    simp

theorem mem_dkeys_dset (d : Dict) (k k' : String) (v : PyVal) (h : k' ∈ dkeys d) :
    k' ∈ dkeys (dset d k v) := by
  by_cases hm : k ∈ dkeys d
  · rwa [dkeys_dset_of_mem d k v hm]
  · rw [dkeys_dset_of_not_mem d k v hm]
    exact List.mem_append_left _ h

theorem mem_dkeys_dset_self (d : Dict) (k : String) (v : PyVal) :
    k ∈ dkeys (dset d k v) := by
  by_cases hm : k ∈ dkeys d
  · rwa [dkeys_dset_of_mem d k v hm]
  · rw [dkeys_dset_of_not_mem d k v hm]
    exact List.mem_append_right _ (by simp)

theorem dsetdefault_of_mem (d : Dict) (k : String) (v : PyVal) (h : k ∈ dkeys d) :
    dsetdefault d k v = d := by
  induction d with
  | nil => simp [dkeys] at h
  | cons p t ih =>
    by_cases hp : p.1 = k
    · simp [dsetdefault, hp]
    · have ht : k ∈ dkeys t := by
        simp only [dkeys, List.map_cons, List.mem_cons] at h
        rcases h with h | h
        · exact absurd h.symm hp
        · exact h
      simp [dsetdefault, hp, ih ht]

theorem dkeys_dsetdefault_of_not_mem (d : Dict) (k : String) (v : PyVal)
    (h : k ∉ dkeys d) : dkeys (dsetdefault d k v) = dkeys d ++ [k] := by
  induction d with
  | nil => simp [dsetdefault, dkeys]
  | cons p t ih =>
    have hp : p.1 ≠ k := by
      intro hh
      exact h (by rw [dkeys_cons, hh]; exact List.mem_cons_self k _)
    have ht : k ∉ dkeys t := by
      intro hh
      exact h (by rw [dkeys_cons]; exact List.mem_cons_of_mem _ hh)
    simp only [dsetdefault, if_neg hp]
    rw [dkeys_cons, dkeys_cons, ih ht]
    simp

theorem mem_dkeys_dsetdefault (d : Dict) (k k' : String) (v : PyVal)
    (h : k' ∈ dkeys d) : k' ∈ dkeys (dsetdefault d k v) := by
  by_cases hm : k ∈ dkeys d
  · rwa [dsetdefault_of_mem d k v hm]
  · rw [dkeys_dsetdefault_of_not_mem d k v hm]
    exact List.mem_append_left _ h

theorem mem_dkeys_dsetdefault_self (d : Dict) (k : String) (v : PyVal) :
    k ∈ dkeys (dsetdefault d k v) := by
  by_cases hm : k ∈ dkeys d
  · rwa [dsetdefault_of_mem d k v hm]
  · rw [dkeys_dsetdefault_of_not_mem d k v hm]
    exact List.mem_append_right _ (by simp)

/-- Every key of `ks`, and every pre-existing key, is present after the
`for k in SCHEMA_KEYS: fields.setdefault(k, None)` loop. -/
theorem mem_dkeys_setdefault_foldl (ks : List String) (d : Dict) (k : String)
    (h : k ∈ ks ∨ k ∈ dkeys d) :
    k ∈ dkeys (ks.foldl (fun d k => dsetdefault d k .none) d) := by
  induction ks generalizing d with
  | nil =>
    rcases h with h | h
    · simp at h
    · simpa using h
  | cons a t ih =>
    simp only [List.foldl_cons]
    rcases h with h | h
    · rcases List.mem_cons.mp h with h | h
      · exact ih _ (Or.inr (h ▸ mem_dkeys_dsetdefault_self d a .none))
      · exact ih _ (Or.inl h)
    · exact ih _ (Or.inr (mem_dkeys_dsetdefault d a k .none h))

/-- The setdefault loop is the identity when every key is already present. -/
theorem setdefault_foldl_of_all_mem (ks : List String) (d : Dict)
    (h : ∀ k ∈ ks, k ∈ dkeys d) :
    ks.foldl (fun d k => dsetdefault d k .none) d = d := by
  induction ks with
  | nil => simp
  | cons a t ih =>
    simp only [List.foldl_cons]
    rw [dsetdefault_of_mem d a .none (h a (by simp))]
    exact ih (fun k hk => h k (by simp [hk]))

/-! ## Keys of the finalized record -/

theorem mem_dkeys_finalizeAmount {d : Dict} {k : String} (h : k ∈ dkeys d) :
    k ∈ dkeys (finalizeAmount d) := by
  unfold finalizeAmount
  split
  · exact h
  · exact h
  · exact mem_dkeys_dset _ _ _ _ h

theorem dkeys_finalizeAmount_of_mem {d : Dict} (hm : "amount" ∈ dkeys d) :
    dkeys (finalizeAmount d) = dkeys d := by
  unfold finalizeAmount
  split
  · rfl
  · rfl
  · exact dkeys_dset_of_mem _ _ _ hm

theorem mem_dkeys_finalizeCurrency {d : Dict} {k : String} (h : k ∈ dkeys d) :
    k ∈ dkeys (finalizeCurrency d) :=
  mem_dkeys_dset _ _ _ _ h

theorem dkeys_finalizeCurrency_of_mem {d : Dict} (hm : "currency" ∈ dkeys d) :
    dkeys (finalizeCurrency d) = dkeys d :=
  dkeys_dset_of_mem _ _ _ hm

theorem mem_dkeys_finalizeDate {d : Dict} {k key : String} (h : k ∈ dkeys d) :
    k ∈ dkeys (finalizeDate key d) :=
  mem_dkeys_dset _ _ _ _ h

theorem dkeys_finalizeDate_of_mem {d : Dict} {key : String} (hm : key ∈ dkeys d) :
    dkeys (finalizeDate key d) = dkeys d :=
  dkeys_dset_of_mem _ _ _ hm

/-- Every schema key and `period` is a key of the finalized record,
whatever dict a strategy produced. -/
theorem mem_dkeys_finalizeFields (d : Dict) (k : String)
    (h : k ∈ SCHEMA_KEYS ++ ["period"]) : k ∈ dkeys (finalizeFields d) := by
  rcases List.mem_append.mp h with h | h
  · have h1 : k ∈ dkeys (finalizeSetdefaults d) :=
      mem_dkeys_setdefault_foldl _ _ _ (Or.inl h)
    exact mem_dkeys_dset _ _ _ _
      (mem_dkeys_finalizeDate (mem_dkeys_finalizeDate (mem_dkeys_finalizeDate
        (mem_dkeys_finalizeCurrency (mem_dkeys_finalizeAmount h1)))))
  · have hk : k = "period" := by simpa using h
    subst hk
    exact mem_dkeys_dset_self _ _ _

/-! ## Keys of the rule-fallback record -/

theorem dkeys_ruleInit :
    dkeys (SCHEMA_KEYS.map (fun k => (k, PyVal.none))) = SCHEMA_KEYS := by
  simp [dkeys, List.map_map]
  rfl

theorem dkeys_ruleCurrencyStep {t : String} {d : Dict} (hm : "currency" ∈ dkeys d) :
    dkeys (ruleCurrencyStep t d) = dkeys d := by
  unfold ruleCurrencyStep
  split_ifs <;> first | rfl | exact dkeys_dset_of_mem _ _ _ hm

theorem dkeys_ruleAmountStep {t : String} {d : Dict} (hm : "amount" ∈ dkeys d) :
    dkeys (ruleAmountStep t d) = dkeys d := by
  unfold ruleAmountStep
  split
  · exact dkeys_dset_of_mem _ _ _ hm
  · rfl

theorem dkeys_ruleDueStep {t : String} {d : Dict} (hm : "due_date" ∈ dkeys d) :
    dkeys (ruleDueStep t d) = dkeys d :=
  dkeys_dset_of_mem _ _ _ hm

theorem dkeys_ruleProviderStep {t : String} {d : Dict} (hm : "provider" ∈ dkeys d) :
    dkeys (ruleProviderStep t d) = dkeys d := by
  unfold ruleProviderStep
  split
  · exact dkeys_dset_of_mem _ _ _ hm
  · rfl

/-- The rule fallback never drops or adds a key: its keys are exactly
`SCHEMA_KEYS`, fields it cannot determine staying `None`. -/
theorem dkeys_ruleFallback (t : String) : dkeys (ruleFallback t) = SCHEMA_KEYS := by
  unfold ruleFallback
  have h0 := dkeys_ruleInit
  have h1 : dkeys (ruleCurrencyStep t (SCHEMA_KEYS.map (fun k => (k, PyVal.none)))) = SCHEMA_KEYS := by
    rw [dkeys_ruleCurrencyStep (by rw [h0]; decide), h0]
  have h2 : dkeys (ruleAmountStep t (ruleCurrencyStep t (SCHEMA_KEYS.map (fun k => (k, PyVal.none))))) = SCHEMA_KEYS := by
    rw [dkeys_ruleAmountStep (by rw [h1]; decide), h1]
  have h3 : dkeys (ruleDueStep t (ruleAmountStep t (ruleCurrencyStep t (SCHEMA_KEYS.map (fun k => (k, PyVal.none)))))) = SCHEMA_KEYS := by
    rw [dkeys_ruleDueStep (by rw [h2]; decide), h2]
  rw [dkeys_ruleProviderStep (by rw [h3]; decide), h3]

/-- Finalizing the rule-fallback record yields exactly the 8 schema keys
plus `period`, in schema order. -/
theorem dkeys_finalize_ruleFallback (t : String) :
    dkeys (finalizeFields (ruleFallback t)) = SCHEMA_KEYS ++ ["period"] := by
  unfold finalizeFields
  have hset : finalizeSetdefaults (ruleFallback t) = ruleFallback t := by
    unfold finalizeSetdefaults
    exact setdefault_foldl_of_all_mem _ _ (fun k hk => by rw [dkeys_ruleFallback]; exact hk)
  rw [hset]
  have hr := dkeys_ruleFallback t
  have hA : dkeys (finalizeAmount (ruleFallback t)) = SCHEMA_KEYS := by
    rw [dkeys_finalizeAmount_of_mem (by rw [hr]; decide), hr]
  have hC : dkeys (finalizeCurrency (finalizeAmount (ruleFallback t))) = SCHEMA_KEYS := by
    rw [dkeys_finalizeCurrency_of_mem (by rw [hA]; decide), hA]
  have hD1 : dkeys (finalizeDate "due_date" (finalizeCurrency (finalizeAmount (ruleFallback t)))) = SCHEMA_KEYS := by
    rw [dkeys_finalizeDate_of_mem (by rw [hC]; decide), hC]
  have hD2 : dkeys (finalizeDate "period_start" (finalizeDate "due_date" (finalizeCurrency (finalizeAmount (ruleFallback t))))) = SCHEMA_KEYS := by
    rw [dkeys_finalizeDate_of_mem (by rw [hD1]; decide), hD1]
  have hD3 : dkeys (finalizeDate "period_end" (finalizeDate "period_start" (finalizeDate "due_date" (finalizeCurrency (finalizeAmount (ruleFallback t)))))) = SCHEMA_KEYS := by
    rw [dkeys_finalizeDate_of_mem (by rw [hD2]; decide), hD2]
  unfold finalizePeriod
  rw [dkeys_dset_of_not_mem _ _ _ (by rw [hD3]; decide), hD3]

/-! ## Rule-fallback field lemmas -/

theorem dget_ruleProviderStep_ne {t : String} {d : Dict} {k : String}
    (h : k ≠ "provider") : dget (ruleProviderStep t d) k = dget d k := by
  unfold ruleProviderStep
  split
  · exact dget_dset_ne _ _ _ _ h
  · rfl

theorem dget_ruleDueStep_ne {t : String} {d : Dict} {k : String}
    (h : k ≠ "due_date") : dget (ruleDueStep t d) k = dget d k :=
  dget_dset_ne _ _ _ _ h

theorem dget_ruleAmountStep_ne {t : String} {d : Dict} {k : String}
    (h : k ≠ "amount") : dget (ruleAmountStep t d) k = dget d k := by
  unfold ruleAmountStep
  split
  · exact dget_dset_ne _ _ _ _ h
  · rfl

/-- The rule fallback's currency field follows the fixed GHS, USD, EUR,
GBP pattern priority, `None` when no marker occurs. -/
theorem dget_currency_ruleFallback (t : String) :
    dget (ruleFallback t) "currency" =
      some (if hasMatch reGHS t then PyVal.str "GHS"
            else if hasMatch reUSD t then PyVal.str "USD"
            else if hasMatch reEUR t then PyVal.str "EUR"
            else if hasMatch reGBP t then PyVal.str "GBP"
            else PyVal.none) := by
  unfold ruleFallback
  rw [dget_ruleProviderStep_ne (by decide), dget_ruleDueStep_ne (by decide),
    dget_ruleAmountStep_ne (by decide)]
  unfold ruleCurrencyStep
  split_ifs <;> first | exact dget_dset_self _ _ _ | rfl

end BillsBuddy

namespace BillsBuddy

/-! ## Claim theorems -/

/-- C3 counterexample: amount coercion on the European-style literal
`"1.234,56"` drops the comma as a thousands separator (both separators
being present) and yields `1.23456`, not the `1234.56` the claim states. -/
theorem C3_counterexample :
    toFloat "1.234,56" = some ((1.23456 : ℚ)) ∧
    toFloat "1.234,56" ≠ some ((1234.56 : ℚ)) := by
  constructor
  · rfl
  · intro h
    have : ((1.23456 : ℚ)) = ((1234.56 : ℚ)) := by
      have h1 : toFloat "1.234,56" = some ((1.23456 : ℚ)) := rfl
      rw [h1] at h
      exact Option.some.inj h
    norm_num at this

/-- C3 (amended): amount coercion strips currency markers and whitespace;
with both `,` and `.` present the commas are dropped as thousands
separators (so `"1,234.56" ↦ 1234.56` but also `"1.234,56" ↦ 1.23456`);
a lone `,` becomes the decimal point; parse failures give `None`, never an
error (the function is total into `Option`). -/
theorem C3_amount_coercion :
    toFloat "1,234.56" = some ((1234.56 : ℚ))
  ∧ toFloat "1234.56" = some ((1234.56 : ℚ))
  ∧ toFloat "1.234,56" = some ((1.23456 : ℚ))
  ∧ toFloat "123,45" = some ((123.45 : ℚ))
  ∧ toFloat "GHS 1,234.56" = some ((1234.56 : ℚ))
  ∧ toFloat "abc" = Option.none
  ∧ toFloat "" = Option.none := by
  exact ⟨rfl, rfl, rfl, rfl, rfl, rfl, rfl⟩

/-- C4: date coercion returns the canonical `YYYY-MM-DD` for an exact ISO
string (validated by reconstruction), for day-month-name-year and for
month-name-day-year text; an invalid calendar date (`"31 Feb 2024"`, or an
ISO-shaped `"2024-13-05"`) yields `None`, never an error; the free-text
scan tries the three patterns in the fixed order. -/
theorem C4_date_coercion :
    isoDate (.str "2024-03-05") = some "2024-03-05"
  ∧ isoDate (.str "5th March 2024") = some "2024-03-05"
  ∧ isoDate (.str "March 5, 2024") = some "2024-03-05"
  ∧ isoDate (.str "31 Feb 2024") = Option.none
  ∧ isoDate (.str "2024-13-05") = Option.none
  ∧ (∀ s : String, parseDateIsoAny s =
      (parseYyyySepDd s).orElse (fun _ =>
        (parseDdMonYyyy s).orElse (fun _ => parseMonDdYyyy s))) := by
  exact ⟨rfl, rfl, rfl, rfl, rfl, fun s => rfl⟩

/-- C7 counterexample: on a text containing `"Total Due: GHS 452.10"` but
with an earlier label (`"total amount"`) followed by a numeric token, the
rule extractor takes the earlier label's token: the amount is `1`, not
`452.10`. -/
theorem C7_counterexample :
    ("total amount 1 " ++ "Total Due: GHS 452.10" : String) =
      "total amount 1 Total Due: GHS 452.10"
  ∧ dget (ruleFallback "total amount 1 Total Due: GHS 452.10") "amount" =
      some (.num 1)
  ∧ ((1 : ℚ) ≠ (452.10 : ℚ)) := by
  refine ⟨rfl, rfl, by norm_num⟩

/-- C7 (amended): the rule extractor never fails — its result always has
exactly the 8 schema keys, undetermined fields `None`; currency is set by
the first matching marker pattern in priority order GHS, USD, EUR, GBP;
the amount comes from the first label phrase that is followed by a numeric
token within 160 characters (labels with no number in range are skipped);
on the text `"Total Due: GHS 452.10"` itself it returns amount `452.10`
and currency `"GHS"`. -/
theorem C7_rule_extractor :
    (∀ t : String, dkeys (ruleFallback t) = SCHEMA_KEYS)
  ∧ (∀ t : String, dget (ruleFallback t) "currency" =
      some (if hasMatch reGHS t then PyVal.str "GHS"
            else if hasMatch reUSD t then PyVal.str "USD"
            else if hasMatch reEUR t then PyVal.str "EUR"
            else if hasMatch reGBP t then PyVal.str "GBP"
            else PyVal.none))
  ∧ ruleFallback "Total Due: GHS 452.10" =
      [("provider", .str "Total Due: GHS 452.10"),
       ("amount", .num ((452.10 : ℚ))),
       ("currency", .str "GHS"),
       ("due_date", .none),
       ("account_number", .none),
       ("invoice_number", .none),
       ("period_start", .none),
       ("period_end", .none)] := by
  exact ⟨dkeys_ruleFallback, dget_currency_ruleFallback, rfl⟩

/-- C5 counterexample: with the duplicate offsets `[0, 0]` the plan holds
two events with `offset_days == 0` (both `due-day`), so "exactly one event
has `offset_days == 0` whenever a zero offset is requested" fails. -/
theorem C5_counterexample :
    ((buildPlan 0 [0, 0]).filter (fun e => e.offset_days = 0)).length = 2
  ∧ (0 : ℤ) ∈ ([0, 0] : List ℤ)
  ∧ ((buildPlan 0 [0, 0]).filter (fun e => e.offset_days = 0)).length ≠ 1 := by
  refine ⟨rfl, by decide, by decide⟩

/-- C5 (amended): the plan has as many `offset_days == 0` events as the
input has zero offsets — exactly one when a zero offset is requested
exactly once; zero-offset events are `due-day` and the rest `reminder`;
all timestamps share the due instant's time of day (hence its wall-clock
hour); events keep exactly the input offsets order, with no re-ordering,
de-duplication or clamping. -/
theorem C5_plan_invariants :
    ∀ (dt : ℤ) (offs : List ℤ),
      ((buildPlan dt offs).countP (fun e => decide (e.offset_days = 0)) =
        offs.countP (fun o => decide (o = 0)))
    ∧ ((buildPlan dt offs).map (fun e => e.offset_days) = offs)
    ∧ (∀ e ∈ buildPlan dt offs,
        (e.offset_days = 0 → e.type = "due-day") ∧ (e.offset_days ≠ 0 → e.type = "reminder"))
    ∧ (∀ e ∈ buildPlan dt offs, ∃ u : ℤ, e.when = fmtInstantISO u ∧ u % 86400 = dt % 86400)
    ∧ (offs.countP (fun o => decide (o = 0)) = 1 →
        ((buildPlan dt offs).filter (fun e => e.offset_days = 0 ∧ e.type = "due-day")).length = 1) := by
  intro dt offs
  refine ⟨?_, ?_, ?_, ?_, ?_⟩
  · rw [buildPlan, List.countP_map]
    rfl
  · rw [buildPlan, List.map_map]
    exact List.map_id offs
  · intro e he
    rcases List.mem_map.mp he with ⟨o, _, rfl⟩
    constructor
    · intro h0
      simp only [mkEv] at h0 ⊢
      rw [if_pos h0]
    · intro h0
      simp only [mkEv] at h0 ⊢
      rw [if_neg h0]
  · intro e he
    rcases List.mem_map.mp he with ⟨o, _, rfl⟩
    exact ⟨dt - o * 86400, rfl, by omega⟩
  · intro h1
    rw [buildPlan, List.filter_map, List.length_map, ← List.countP_eq_length_filter]
    rw [← h1]
    apply List.countP_congr
    intro o _
    by_cases h0 : o = 0
    · subst h0
      simp [mkEv]
    · simp [mkEv, h0]

/-- C5 witness. -/
theorem C5_witness :
    ((buildPlan 0 [7, 3, 0]).map (fun e => e.offset_days) = [7, 3, 0])
  ∧ ((buildPlan 0 [7, 3, 0]).filter (fun e => e.offset_days = 0 ∧ e.type = "due-day")).length = 1
  ∧ (mkEv 0 0).type = "due-day" :=
  ⟨(C5_plan_invariants 0 [7, 3, 0]).2.1,
   (C5_plan_invariants 0 [7, 3, 0]).2.2.2.2 (by decide),
   ((C5_plan_invariants 0 [7, 3, 0]).2.2.1 (mkEv 0 0) (by decide)).1 rfl⟩

/-- The date-only branch of the schedule handler, reduced (no reminder
instant overflows). -/
theorem scheduleHandler_date_only (due : String) (y m d : ℤ) (offs : List ℤ) (h : ℤ)
    (uo bo : Option String) (hp : parseDueParts due = some (y, m, d))
    (hT : due.data.contains 'T' = false) (hv : validYMDH y m d h = true)
    (hr : offsetsInRange (dueInstant y m d h) offs = true) :
    scheduleHandler
        { due_date := some due, userId := uo, billId := bo,
          offsets_days := some offs, hour := some h } =
      .ok (buildPlan (dueInstant y m d h) offs)
        { pk := orDefault uo "demo" ++ "#" ++ orDefault bo "bill-001", sk := "v1",
          dueDate := fmtDateISO (Int.fdiv (dueInstant y m d h) 86400),
          plan := buildPlan (dueInstant y m d h) offs } := by
  have hne : ¬ due = "" := by
    intro h0
    subst h0
    exact Option.noConfusion hp
  unfold scheduleHandler
  simp only [optStrFalsy, hne, decide_False, Bool.false_eq_true, if_false, Option.getD_some,
    hT, hp, hv, hr, if_true]

/-- The date-only branch of the schedule handler when some reminder
instant overflows: 500, no plan. -/
theorem scheduleHandler_date_overflow (due : String) (y m d : ℤ) (offs : List ℤ) (h : ℤ)
    (uo bo : Option String) (hp : parseDueParts due = some (y, m, d))
    (hT : due.data.contains 'T' = false) (hv : validYMDH y m d h = true)
    (hr : offsetsInRange (dueInstant y m d h) offs = false) :
    scheduleHandler
        { due_date := some due, userId := uo, billId := bo,
          offsets_days := some offs, hour := some h } = .serverError := by
  have hne : ¬ due = "" := by
    intro h0
    subst h0
    exact Option.noConfusion hp
  unfold scheduleHandler
  simp only [optStrFalsy, hne, decide_False, Bool.false_eq_true, if_false, Option.getD_some,
    hT, hp, hv, hr, if_true]

/-- The schedule handler with every optional field absent, reduced (no
reminder instant overflows). -/
theorem scheduleHandler_defaults (due : String) (y m d : ℤ)
    (hp : parseDueParts due = some (y, m, d))
    (hT : due.data.contains 'T' = false) (hv : validYMDH y m d 9 = true)
    (hr : offsetsInRange (dueInstant y m d 9) [7, 3, 0] = true) :
    scheduleHandler { due_date := some due } =
      .ok (buildPlan (dueInstant y m d 9) [7, 3, 0])
        { pk := "demo#bill-001", sk := "v1",
          dueDate := fmtDateISO (Int.fdiv (dueInstant y m d 9) 86400),
          plan := buildPlan (dueInstant y m d 9) [7, 3, 0] } := by
  have hne : ¬ due = "" := by
    intro h0
    subst h0
    exact Option.noConfusion hp
  unfold scheduleHandler
  simp only [optStrFalsy, hne, decide_False, Bool.false_eq_true, if_false, Option.getD_some,
    Option.getD_none, hT, hp, hv, hr, if_true, orDefault]
  rfl

/-- The schedule handler with every optional field absent when one of the
default reminder instants overflows: 500, no plan. -/
theorem scheduleHandler_defaults_overflow (due : String) (y m d : ℤ)
    (hp : parseDueParts due = some (y, m, d))
    (hT : due.data.contains 'T' = false) (hv : validYMDH y m d 9 = true)
    (hr : offsetsInRange (dueInstant y m d 9) [7, 3, 0] = false) :
    scheduleHandler { due_date := some due } = .serverError := by
  have hne : ¬ due = "" := by
    intro h0
    subst h0
    exact Option.noConfusion hp
  unfold scheduleHandler
  simp only [optStrFalsy, hne, decide_False, Bool.false_eq_true, if_false, Option.getD_some,
    Option.getD_none, hT, hp, hv, hr, if_true, orDefault]

def isSchedOk : SchedRes → Bool
  | .ok _ _ => true
  | _ => false

/-- C2 counterexample: with due date 2024-03-10 and the single offset
1000000 (about 2700 years back), `dt - timedelta(days=off)` leaves
`datetime`'s range, so the program answers 500 with no events — not one
event per offset as the claim asserts for every integer offsets list. -/
theorem C2_counterexample :
    scheduleHandler
        { due_date := some "2024-03-10", offsets_days := some [1000000], hour := some 9 } =
      .serverError
  ∧ isSchedOk (scheduleHandler
        { due_date := some "2024-03-10", offsets_days := some [1000000], hour := some 9 }) =
      false := by
  exact ⟨rfl, rfl⟩

/-- C2 (amended): for every date-only due date, hour-of-day, and offsets
list whose reminder instants stay within `datetime`'s representable range,
the handler emits one event per offset in input order, each `when` being
the due instant minus the offset in days, typed `due-day` exactly at
offset 0; an offsets list leaving that range makes the request fail with a
500 and no events; in particular
`schedule(due="2024-03-10", offsets=[7,3,0], hour=9)` yields exactly the
three stated events in order. -/
theorem C2_schedule :
    (∀ (due : String) (y m d : ℤ) (offs : List ℤ) (h : ℤ),
      parseDueParts due = some (y, m, d) →
      due.data.contains 'T' = false →
      validYMDH y m d h = true →
      offsetsInRange (dueInstant y m d h) offs = true →
      ∃ item : SchedItem,
        scheduleHandler { due_date := some due, offsets_days := some offs, hour := some h } =
          .ok (offs.map (fun o =>
            { when := fmtInstantISO (dueInstant y m d h - o * 86400)
              type := if o = 0 then "due-day" else "reminder"
              offset_days := o })) item)
  ∧ (∀ (due : String) (y m d : ℤ) (offs : List ℤ) (h : ℤ),
      parseDueParts due = some (y, m, d) →
      due.data.contains 'T' = false →
      validYMDH y m d h = true →
      offsetsInRange (dueInstant y m d h) offs = false →
      scheduleHandler { due_date := some due, offsets_days := some offs, hour := some h } =
        .serverError)
  ∧ scheduleHandler
      { due_date := some "2024-03-10", offsets_days := some [7, 3, 0], hour := some 9 } =
      .ok
        [⟨"2024-03-03T09:00:00Z", "reminder", 7⟩,
         ⟨"2024-03-07T09:00:00Z", "reminder", 3⟩,
         ⟨"2024-03-10T09:00:00Z", "due-day", 0⟩]
        ⟨"demo#bill-001", "v1", "2024-03-10",
         [⟨"2024-03-03T09:00:00Z", "reminder", 7⟩,
          ⟨"2024-03-07T09:00:00Z", "reminder", 3⟩,
          ⟨"2024-03-10T09:00:00Z", "due-day", 0⟩]⟩ := by
  refine ⟨?_, ?_, ?_⟩
  · intro due y m d offs h hp hT hv hr
    exact ⟨_, scheduleHandler_date_only due y m d offs h Option.none Option.none hp hT hv hr⟩
  · intro due y m d offs h hp hT hv hr
    exact scheduleHandler_date_overflow due y m d offs h Option.none Option.none hp hT hv hr
  · rfl

/-- C2 witness. -/
theorem C2_witness :
    (∃ item : SchedItem,
      scheduleHandler { due_date := some "2024-03-10", offsets_days := some [7, 3, 0], hour := some 9 } =
        .ok ([7, 3, 0].map (fun o =>
          { when := fmtInstantISO (dueInstant 2024 3 10 9 - o * 86400)
            type := if o = 0 then "due-day" else "reminder"
            offset_days := o })) item)
  ∧ scheduleHandler
      { due_date := some "2024-03-10", offsets_days := some [1000000], hour := some 9 } =
      .serverError :=
  ⟨C2_schedule.1 "2024-03-10" 2024 3 10 [7, 3, 0] 9 rfl rfl rfl rfl,
   C2_schedule.2.1 "2024-03-10" 2024 3 10 [1000000] 9 rfl rfl rfl rfl⟩

/-- C10 counterexample: a request carrying only the date-only due date
"0001-01-05" makes the default offset 7 underflow `datetime.min`, so the
program answers 500 with no events — not the three events the claim
asserts for every date-only due date. -/
theorem C10_counterexample :
    scheduleHandler { due_date := some "0001-01-05" } = .serverError
  ∧ isSchedOk (scheduleHandler { due_date := some "0001-01-05" }) = false := by
  exact ⟨rfl, rfl⟩

/-- C10 (amended): a schedule request carrying only a date-only `due_date`
uses the fixed defaults — offsets `[7, 3, 0]`, hour `9`, identity
`demo`/`bill-001` — and yields exactly three events at the due date's
09:00:00Z minus 7, minus 3 and minus 0 days, provided those instants stay
within `datetime`'s representable range; otherwise the request fails with
a 500 and no events.  Concretely the three events for `"2024-04-01"`. -/
theorem C10_schedule_defaults :
    (∀ (due : String) (y m d : ℤ),
      parseDueParts due = some (y, m, d) →
      due.data.contains 'T' = false →
      validYMDH y m d 9 = true →
      offsetsInRange (dueInstant y m d 9) [7, 3, 0] = true →
      scheduleHandler { due_date := some due } =
        .ok [mkEv (dueInstant y m d 9) 7, mkEv (dueInstant y m d 9) 3, mkEv (dueInstant y m d 9) 0]
          { pk := "demo#bill-001", sk := "v1",
            dueDate := fmtDateISO (Int.fdiv (dueInstant y m d 9) 86400),
            plan := [mkEv (dueInstant y m d 9) 7, mkEv (dueInstant y m d 9) 3,
                     mkEv (dueInstant y m d 9) 0] })
  ∧ (∀ (due : String) (y m d : ℤ),
      parseDueParts due = some (y, m, d) →
      due.data.contains 'T' = false →
      validYMDH y m d 9 = true →
      offsetsInRange (dueInstant y m d 9) [7, 3, 0] = false →
      scheduleHandler { due_date := some due } = .serverError)
  ∧ scheduleHandler { due_date := some "2024-04-01" } =
      .ok
        [⟨"2024-03-25T09:00:00Z", "reminder", 7⟩,
         ⟨"2024-03-29T09:00:00Z", "reminder", 3⟩,
         ⟨"2024-04-01T09:00:00Z", "due-day", 0⟩]
        ⟨"demo#bill-001", "v1", "2024-04-01",
         [⟨"2024-03-25T09:00:00Z", "reminder", 7⟩,
          ⟨"2024-03-29T09:00:00Z", "reminder", 3⟩,
          ⟨"2024-04-01T09:00:00Z", "due-day", 0⟩]⟩ := by
  refine ⟨?_, ?_, ?_⟩
  · intro due y m d hp hT hv hr
    exact scheduleHandler_defaults due y m d hp hT hv hr
  · intro due y m d hp hT hv hr
    exact scheduleHandler_defaults_overflow due y m d hp hT hv hr
  · rfl

/-- C10 witness. -/
theorem C10_witness :
    scheduleHandler { due_date := some "2024-04-01" } =
      .ok [mkEv (dueInstant 2024 4 1 9) 7, mkEv (dueInstant 2024 4 1 9) 3,
           mkEv (dueInstant 2024 4 1 9) 0]
        { pk := "demo#bill-001", sk := "v1",
          dueDate := fmtDateISO (Int.fdiv (dueInstant 2024 4 1 9) 86400),
          plan := [mkEv (dueInstant 2024 4 1 9) 7, mkEv (dueInstant 2024 4 1 9) 3,
                   mkEv (dueInstant 2024 4 1 9) 0] }
  ∧ scheduleHandler { due_date := some "0001-01-03" } = .serverError :=
  ⟨C10_schedule_defaults.1 "2024-04-01" 2024 4 1 rfl rfl rfl rfl,
   C10_schedule_defaults.2.1 "0001-01-03" 1 1 3 rfl rfl rfl rfl⟩

/-- The polling loop times out when the first `n + 1` statuses seen are
all non-terminal and the wait budget is exhausted within them. -/
theorem pollLoop_timeout_aux (status : ℕ → String) :
    ∀ (n i waited : ℕ), 60 ≤ waited + 2 * (n + 1) →
      (∀ j, i ≤ j → j < i + (n + 1) →
        status j ≠ "SUCCEEDED" ∧ status j ≠ "FAILED" ∧ status j ≠ "PARTIAL_SUCCESS") →
      pollLoop status 60 i waited = .timedOut := by
  intro n
  induction n with
  | zero =>
    intro i waited h1 h3
    have hi := h3 i (le_refl i) (by omega)
    rw [pollLoop, if_neg hi.1, if_neg (fun hc => hc.elim hi.2.1 hi.2.2), if_pos (by omega)]
  | succ k ih =>
    intro i waited h1 h3
    have hi := h3 i (le_refl i) (by omega)
    rw [pollLoop, if_neg hi.1, if_neg (fun hc => hc.elim hi.2.1 hi.2.2)]
    by_cases hw : 60 ≤ waited + 2
    · rw [if_pos hw]
    · rw [if_neg hw]
      exact ih (i + 1) (waited + 2) (by omega) (fun j hj1 hj2 => h3 j (by omega) (by omega))

/-- The polling loop inspects at most the first `n + 1` statuses within
its wait budget: results agree whenever those statuses agree. -/
theorem pollLoop_agree_aux (s t : ℕ → String) :
    ∀ (n i waited : ℕ), 60 ≤ waited + 2 * (n + 1) →
      (∀ j, i ≤ j → j < i + (n + 1) → s j = t j) →
      pollLoop s 60 i waited = pollLoop t 60 i waited := by
  intro n
  induction n with
  | zero =>
    intro i waited h1 h2
    have hs := h2 i (le_refl i) (by omega)
    rw [pollLoop, hs]
    conv_rhs => rw [pollLoop]
    split_ifs <;> rfl
  | succ k ih =>
    intro i waited h1 h2
    have hs := h2 i (le_refl i) (by omega)
    rw [pollLoop, hs]
    conv_rhs => rw [pollLoop]
    split_ifs <;>
      first
      | rfl
      | exact ih (i + 1) (waited + 2) (by omega) (fun j hj1 hj2 => h2 j (by omega) (by omega))

/-- The extract handler on a nonempty inline text: the acquired text is the
stripped raw text, one page, `raw` mode. -/
theorem extractHandler_raw (w : World) (b : ExtractBody) (t : String)
    (h1 : b.raw_text = some t) (h2 : pyStrip t ≠ "") :
    extractHandler w b =
      .ok (finalizeFields (if (llmFieldsOf w).isEmpty then ruleFallback (pyStrip t)
                           else llmFieldsOf w))
        1 "raw" (String.mk ((pyStrip t).data.take 4000)) := by
  unfold extractHandler
  rw [h1]
  simp only [Option.getD_some]
  rw [if_pos h2]
  rfl

/-- C8: the asynchronous OCR polling loop is a bounded wait with a fixed
2-second interval — its result depends only on the first 30 poll results —
and a job that stays non-terminal throughout the bound produces the
`Timeout` failure; a PDF/TIFF document reference routes through this loop
and surfaces the timeout as the 504 response. -/
theorem C8_async_polling :
    (∀ status : ℕ → String,
      (∀ i, i < 30 →
        status i ≠ "SUCCEEDED" ∧ status i ≠ "FAILED" ∧ status i ≠ "PARTIAL_SUCCESS") →
      pollLoop status 60 0 0 = .timedOut)
  ∧ (∀ s t : ℕ → String, (∀ i, i < 30 → s i = t i) →
      pollLoop s 60 0 0 = pollLoop t 60 0 0)
  ∧ (∀ (w : World) (b : ExtractBody) (bk k : String),
      b.raw_text = Option.none → b.bucket = some bk → bk ≠ "" → b.key = some k →
      (extOf k = ".pdf" ∨ extOf k = ".tif" ∨ extOf k = ".tiff") →
      (∀ i, i < 30 →
        w.asyncStatus i ≠ "SUCCEEDED" ∧ w.asyncStatus i ≠ "FAILED" ∧
          w.asyncStatus i ≠ "PARTIAL_SUCCESS") →
      extractHandler w b = .gatewayTimeout "Textract async job not finished after 60s.") := by
  refine ⟨?_, ?_, ?_⟩
  · intro status h
    exact pollLoop_timeout_aux status 29 0 0 (by omega) (fun j hj1 hj2 => h j (by omega))
  · intro s t h
    exact pollLoop_agree_aux s t 29 0 0 (by omega) (fun j hj1 hj2 => h j (by omega))
  · intro w b bk k h1 h2 h3 h4 h5 h6
    have hk : k ≠ "" := by
      intro h0
      subst h0
      revert h5
      decide
    have hpoll :=
      pollLoop_timeout_aux w.asyncStatus 29 0 0 (by omega) (fun j hj1 hj2 => h6 j (by omega))
    unfold extractHandler
    rw [h1, h2, h4]
    simp only [Option.getD_none, Option.getD_some]
    rw [if_neg (fun hc : pyStrip "" ≠ "" => hc rfl)]
    rw [if_neg (by simp [optStrFalsy, h3, hk])]
    rw [if_pos h5, hpoll]

/-- C8 witness. -/
theorem C8_witness :
    pollLoop (fun _ => "IN_PROGRESS") 60 0 0 = .timedOut ∧
    extractHandler ⟨Option.none, Option.none, fun _ => "IN_PROGRESS", ("", 1)⟩
        { bucket := some "b", key := some "doc.pdf" } =
      .gatewayTimeout "Textract async job not finished after 60s." :=
  ⟨C8_async_polling.1 (fun _ => "IN_PROGRESS")
     (fun _ _ =>
       (by decide : "IN_PROGRESS" ≠ "SUCCEEDED" ∧ "IN_PROGRESS" ≠ "FAILED" ∧
         "IN_PROGRESS" ≠ "PARTIAL_SUCCESS")),
   C8_async_polling.2.2 ⟨Option.none, Option.none, fun _ => "IN_PROGRESS", ("", 1)⟩
     { bucket := some "b", key := some "doc.pdf" } "b" "doc.pdf"
     rfl rfl (by decide) rfl (by decide)
     (fun _ _ =>
       (by decide : "IN_PROGRESS" ≠ "SUCCEEDED" ∧ "IN_PROGRESS" ≠ "FAILED" ∧
         "IN_PROGRESS" ≠ "PARTIAL_SUCCESS"))⟩

/-- The world used by the C9 counterexample: the model call raises, OCR
irrelevant. -/
def noLlmWorld : World := ⟨Option.none, Option.none, fun _ => "IN_PROGRESS", ("", 1)⟩

def isBadRequest : ExtractRes → Bool
  | .badRequest _ => true
  | _ => false

/-- C9 counterexample: supplying BOTH inline text and a complete document
reference is not "exactly one" source, yet the handler does not fail with
`InvalidInput` — inline text silently wins. -/
theorem C9_counterexample :
    extractHandler noLlmWorld { raw_text := some "x", bucket := some "bkt", key := some "k.pdf" } =
      .ok (finalizeFields (ruleFallback "x")) 1 "raw" "x"
  ∧ isBadRequest (extractHandler noLlmWorld
      { raw_text := some "x", bucket := some "bkt", key := some "k.pdf" }) = false := by
  exact ⟨rfl, rfl⟩

/-- C9 (amended): the extract handler fails with `InvalidInput` (400) when
no usable source is supplied — inline text empty or absent and the bucket
or key missing; when both are supplied, the inline text takes precedence
and no failure occurs; the schedule handler fails with `InvalidInput`
(400) when `due_date` is absent or empty.  In each failure no partial
result is produced (the result is only the tagged error). -/
theorem C9_invalid_input :
    (∀ (w : World) (b : ExtractBody),
      pyStrip ((b.raw_text).getD "") = "" →
      (optStrFalsy b.bucket || optStrFalsy b.key) = true →
      extractHandler w b = .badRequest "Provide raw_text or \x7bbucket,key\x7d.")
  ∧ (∀ b : SchedBody, optStrFalsy b.due_date = true →
      scheduleHandler b = .badRequest "due_date required")
  ∧ (∀ (w : World) (b : ExtractBody) (t : String),
      b.raw_text = some t → pyStrip t ≠ "" →
      extractHandler w b =
        .ok (finalizeFields (if (llmFieldsOf w).isEmpty then ruleFallback (pyStrip t)
                             else llmFieldsOf w))
          1 "raw" (String.mk ((pyStrip t).data.take 4000))) := by
  refine ⟨?_, ?_, ?_⟩
  · intro w b hr hbk
    unfold extractHandler
    rw [if_neg (fun hc => hc hr), if_pos hbk]
  · intro b hd
    unfold scheduleHandler
    rw [if_pos hd]
  · intro w b t h1 h2
    exact extractHandler_raw w b t h1 h2

/-- C9 witness. -/
theorem C9_witness :
    extractHandler noLlmWorld {} = .badRequest "Provide raw_text or \x7bbucket,key\x7d."
  ∧ scheduleHandler {} = .badRequest "due_date required"
  ∧ extractHandler noLlmWorld { raw_text := some "x" } =
      .ok (finalizeFields (ruleFallback "x")) 1 "raw" "x" :=
  ⟨C9_invalid_input.1 noLlmWorld {} rfl rfl,
   C9_invalid_input.2.1 {} rfl,
   C9_invalid_input.2.2 noLlmWorld { raw_text := some "x" } "x" rfl (by decide)⟩

/-- C6 counterexample: on the reply body `{"a": 1} {}` the code's greedy
brace span (first `\x7b` to last `\x7d`) fails to parse and degrades to an
empty field object, whereas "the first top-level `\x7b...\x7d` substring"
the claim describes parses to `{"a": 1}`. -/
theorem C6_counterexample :
    llmParseReply "\x7b\"a\": 1\x7d \x7b\x7d" = []
  ∧ specLlmParse "\x7b\"a\": 1\x7d \x7b\x7d" = [("a", PyVal.num 1)]
  ∧ llmParseReply "\x7b\"a\": 1\x7d \x7b\x7d" ≠ specLlmParse "\x7b\"a\": 1\x7d \x7b\x7d" := by
  refine ⟨rfl, rfl, ?_⟩
  intro h
  have h1 : llmParseReply "\x7b\"a\": 1\x7d \x7b\x7d" = [] := rfl
  have h2 : specLlmParse "\x7b\"a\": 1\x7d \x7b\x7d" = [("a", PyVal.num 1)] := rfl
  rw [h1, h2] at h
  exact List.noConfusion h

/-- C6 (amended): reply handling tolerates three shapes in priority order —
(a) a structured reply whose text segments are joined and the span from the
first `\x7b` to the last `\x7d` parsed, (b) the raw body with that same
brace span parsed, (c) otherwise the empty field object — and a transport
failure also yields the empty field object; an empty object makes the
handler use the rule-based extractor (one strategy's output, never merged)
and still return a fully-keyed record. -/
theorem C6_llm_response_handling :
    llmParseReply
        "\x7b\"content\": [\x7b\"type\": \"text\", \"text\": \"ok \x7b\\\"amount\\\": 5\x7d done\"\x7d]\x7d" =
      [("amount", PyVal.num 5)]
  ∧ llmParseReply "noise \x7b\"amount\": 7\x7d end" = [("amount", PyVal.num 7)]
  ∧ llmParseReply "no json here" = []
  ∧ (∀ w : World, w.llmReply = Option.none → llmFieldsOf w = [])
  ∧ (∀ (w : World) (b : ExtractBody) (t : String),
      b.raw_text = some t → pyStrip t ≠ "" →
      extractHandler w b =
        .ok (finalizeFields (if (llmFieldsOf w).isEmpty then ruleFallback (pyStrip t)
                             else llmFieldsOf w))
          1 "raw" (String.mk ((pyStrip t).data.take 4000)))
  ∧ (∀ (w : World) (b : ExtractBody) (t : String),
      b.raw_text = some t → pyStrip t ≠ "" → llmFieldsOf w = [] →
      extractHandler w b =
        .ok (finalizeFields (ruleFallback (pyStrip t))) 1 "raw"
          (String.mk ((pyStrip t).data.take 4000))
      ∧ dkeys (finalizeFields (ruleFallback (pyStrip t))) = SCHEMA_KEYS ++ ["period"]) := by
  refine ⟨rfl, rfl, rfl, ?_, ?_, ?_⟩
  · intro w hw
    unfold llmFieldsOf
    rw [hw]
  · exact fun w b t h1 h2 => extractHandler_raw w b t h1 h2
  · intro w b t h1 h2 h3
    constructor
    · have h4 := extractHandler_raw w b t h1 h2
      rw [h3] at h4
      simpa using h4
    · exact dkeys_finalize_ruleFallback (pyStrip t)

/-- C6 witness. -/
theorem C6_witness :
    llmFieldsOf noLlmWorld = []
  ∧ extractHandler noLlmWorld { raw_text := some "Total Due: GHS 452.10" } =
      .ok (finalizeFields (ruleFallback "Total Due: GHS 452.10")) 1 "raw"
        "Total Due: GHS 452.10"
  ∧ dkeys (finalizeFields (ruleFallback "Total Due: GHS 452.10")) = SCHEMA_KEYS ++ ["period"] :=
  ⟨C6_llm_response_handling.2.2.2.1 noLlmWorld rfl,
   (C6_llm_response_handling.2.2.2.2.2 noLlmWorld { raw_text := some "Total Due: GHS 452.10" }
      "Total Due: GHS 452.10" rfl (by decide) rfl).1,
   (C6_llm_response_handling.2.2.2.2.2 noLlmWorld { raw_text := some "Total Due: GHS 452.10" }
      "Total Due: GHS 452.10" rfl (by decide) rfl).2⟩

/-- The world used by the C1 counterexample: the model replies with a JSON
object holding only a non-schema key. -/
def fooWorld : World := ⟨some "\x7b\"foo\": null\x7d", Option.none, fun _ => "X", ("", 1)⟩

/-- C1 counterexample: when the model-assisted strategy yields the object
`{"foo": null}`, the successful response's record carries the stray key
`foo` besides the 8 schema keys and `period` — the record does not contain
exactly the schema keys plus `period`. -/
theorem C1_counterexample :
    extractHandler fooWorld { raw_text := some "x" } =
      .ok (("foo", PyVal.none) ::
            (SCHEMA_KEYS.map (fun k => (k, PyVal.none)) ++ [("period", PyVal.none)]))
        1 "raw" "x"
  ∧ "foo" ∈ dkeys (("foo", PyVal.none) ::
      (SCHEMA_KEYS.map (fun k => (k, PyVal.none)) ++ [("period", PyVal.none)]))
  ∧ "foo" ∉ SCHEMA_KEYS ++ ["period"] := by
  refine ⟨rfl, by decide, by decide⟩

/-- C1 (amended): every successful extraction record contains all 8 schema
keys and the derived `period` key (null for unknown, never missing); the
rule-based strategy's record contains exactly those 9 keys; keys beyond
the schema returned by the model-assisted strategy are passed through. -/
theorem C1_schema_keys :
    (∀ (d : Dict) (k : String), k ∈ SCHEMA_KEYS ++ ["period"] → k ∈ dkeys (finalizeFields d))
  ∧ (∀ t : String, dkeys (finalizeFields (ruleFallback t)) = SCHEMA_KEYS ++ ["period"])
  ∧ (∀ (w : World) (b : ExtractBody) (t : String),
      b.raw_text = some t → pyStrip t ≠ "" →
      ∃ flds pg sm tp, extractHandler w b = .ok flds pg sm tp ∧
        ∀ k, k ∈ SCHEMA_KEYS ++ ["period"] → k ∈ dkeys flds) := by
  refine ⟨mem_dkeys_finalizeFields, dkeys_finalize_ruleFallback, ?_⟩
  intro w b t h1 h2
  exact ⟨_, _, _, _, extractHandler_raw w b t h1 h2,
    fun k hk => mem_dkeys_finalizeFields _ k hk⟩

/-- C1 witness. -/
theorem C1_witness :
    ("amount" ∈ dkeys (finalizeFields []))
  ∧ (∃ flds pg sm tp, extractHandler fooWorld { raw_text := some "x" } = .ok flds pg sm tp ∧
      "provider" ∈ dkeys flds) := by
  refine ⟨C1_schema_keys.1 [] "amount" (by decide), ?_⟩
  obtain ⟨flds, pg, sm, tp, heq, hmem⟩ :=
    C1_schema_keys.2.2 fooWorld { raw_text := some "x" } "x" rfl (by decide)
  exact ⟨flds, pg, sm, tp, heq, hmem "provider" (by decide)⟩

end BillsBuddy
